import Mathlib

/-!
Verification development for the Smart-Scan-Storage server core:
the OCR service (`src/services/ocrService.js`), the permission layer
(`src/middleware/permissions.js`), the document routes
(`src/routes/documents.js`) and the search route (`src/routes/search.js`),
over the SQLite schema of `src/config/database.js`.

JavaScript and SQLite behaviour is embedded shallowly:
- JS strings are Lean `String`s (all texts involved are in the BMP, where
  JS `.length` and per-char operations agree with Lean chars);
- the regular expressions of the OCR service are compiled, construct by
  construct, into the small backtracking matcher `Re` below, with JS
  non-unicode semantics for `\d`, `\s`, `\b` and case-insensitive literals;
- SQLite statements are embedded as the predicate each WHERE/HAVING clause
  denotes, with positional `?`-binding modelled explicitly (better-sqlite3
  raises an error when the number of supplied values differs from the
  number of placeholders, and cannot bind `undefined`);
- fallible routes return `Except ApiErr`.
-/

/-! ## Character classes and JS string helpers -/

/-- JS `\d` (no `u` flag): ASCII digits only. -/
def isDigitCh (c : Char) : Bool := '0' ≤ c && c ≤ '9'

/-- JS `\s`: whitespace (the code only ever meets ASCII whitespace and NBSP). -/
def isWsCh (c : Char) : Bool :=
  c = ' ' || c = '\t' || c = '\n' || c = '\r' || c.val = 11 || c.val = 12 || c.val = 160

/-- ASCII letter. -/
def isAsciiAlphaCh (c : Char) : Bool :=
  ('a' ≤ c && c ≤ 'z') || ('A' ≤ c && c ≤ 'Z')

/-- JS `\b` word characters (no `u` flag): `[A-Za-z0-9_]`; Cyrillic letters are
not word characters. -/
def isWordCh (c : Char) : Bool := isAsciiAlphaCh c || isDigitCh c || c = '_'

/-- Lower-casing as JS `toLowerCase` acts on the two alphabets this code uses:
ASCII `A-Z` and Cyrillic `А-Я`, `Ё`. Other characters are left unchanged. -/
def jsToLower (c : Char) : Char :=
  if 'A' ≤ c && c ≤ 'Z' then Char.ofNat (c.toNat + 32)
  else if 0x410 ≤ c.toNat && c.toNat ≤ 0x42F then Char.ofNat (c.toNat + 32)
  else if c.toNat = 0x401 then Char.ofNat 0x451
  else c

/-- ASCII-only lower-casing, the case folding SQLite `LIKE` applies. -/
def asciiLower (c : Char) : Char :=
  if 'A' ≤ c && c ≤ 'Z' then Char.ofNat (c.toNat + 32) else c

/-- JS `String.prototype.toLowerCase` over the alphabets in play. -/
def jsLowerStr (s : String) : String := String.mk (s.data.map jsToLower)

/-- JS `String.prototype.trim` (strip leading/trailing whitespace). -/
def jsTrim (s : String) : String :=
  String.mk (((s.data.dropWhile isWsCh).reverse.dropWhile isWsCh).reverse)

/-- Is `sub` a contiguous sublist of `s`? -/
def listIsInfix [BEq α] (sub : List α) : List α → Bool
  | [] => sub.isEmpty
  | c :: cs => sub.isPrefixOf (c :: cs) || listIsInfix sub cs

/-- JS `a.includes(b)` on strings. -/
def jsIncludes (s sub : String) : Bool := listIsInfix sub.data s.data

/-- JS `a.endsWith(b)` on strings. -/
def jsEndsWith (s suffix : String) : Bool := suffix.data.isSuffixOf s.data

/-- First index (in chars) of `sub` inside `s`, as JS `indexOf`. -/
def firstIndexOfSub (s sub : List Char) : Option Nat :=
  go s 0
where
  go : List Char → Nat → Option Nat
  | [], i => if sub = [] then some i else none
  | c :: cs, i => if sub.isPrefixOf (c :: cs) then some i else go cs (i + 1)

/-! ## The backtracking regex matcher

Each JS regular expression of the OCR service is hand-compiled into a `Re`
value below; the matcher implements JS semantics: leftmost match, greedy
quantifiers with backtracking, alternation preferring the left branch,
`\b` relative to `[A-Za-z0-9_]`, `$` end anchor, `/g` collecting
non-overlapping matches (advancing by one on an empty match). -/

inductive Re where
  /-- empty pattern -/
  | eps : Re
  /-- one character of a class -/
  | cls (p : Char → Bool) : Re
  /-- case-sensitive literal -/
  | lit (s : List Char) : Re
  /-- case-insensitive literal (the `/i` flag) -/
  | liti (s : List Char) : Re
  | seq (a b : Re) : Re
  | alt (a b : Re) : Re
  /-- greedy bounded repetition of a character class; `hi = none` is unbounded -/
  | rep (lo : Nat) (hi : Option Nat) (p : Char → Bool) : Re
  /-- `\b` -/
  | wordB : Re
  /-- `$` (no `m` flag: end of input) -/
  | endA : Re

/-- Consume a literal; `ci` selects case-insensitive comparison. -/
def litChop (ci : Bool) : List Char → Option Char → List Char → List (Option Char × List Char)
  | [], prev, s => [(prev, s)]
  | _ :: _, _, [] => []
  | l :: ls, _, c :: cs =>
      if (if ci then jsToLower l = jsToLower c else l = c) then litChop ci ls (some c) cs
      else []

/-- Longest prefix of `s` whose characters satisfy `p`. -/
def leadRun (p : Char → Bool) : List Char → List Char
  | [] => []
  | c :: cs => if p c then c :: leadRun p cs else []

/-- Candidate continuations of a greedy class repetition, longest first.
Each candidate is (last consumed char, remaining input). -/
def repSplits (lo : Nat) (hi : Option Nat) (p : Char → Bool) (prev : Option Char)
    (s : List Char) : List (Option Char × List Char) :=
  let run := leadRun p s
  let top := match hi with | none => run.length | some h => min h run.length
  ((List.range (top + 1)).reverse.filter (fun j => lo ≤ j)).map (fun j =>
    (match (s.take j).getLast? with | some c => some c | none => prev, s.drop j))

/-- Word-boundary test between the previous character and the rest. -/
def atWordB (prev : Option Char) (s : List Char) : Bool :=
  let l := match prev with | some c => isWordCh c | none => false
  let r := match s with | c :: _ => isWordCh c | [] => false
  l != r

/-- All ways a pattern can match a prefix of `s`, in JS preference order.
`prev` is the character just before `s` in the full text (for `\b`). -/
def mtch : Re → Option Char → List Char → List (Option Char × List Char)
  | .eps, prev, s => [(prev, s)]
  | .cls _, _, [] => []
  | .cls p, _, c :: cs => if p c then [(some c, cs)] else []
  | .lit l, prev, s => litChop false l prev s
  | .liti l, prev, s => litChop true l prev s
  | .seq a b, prev, s => (mtch a prev s).flatMap (fun st => mtch b st.1 st.2)
  | .alt a b, prev, s => mtch a prev s ++ mtch b prev s
  | .rep lo hi p, prev, s => repSplits lo hi p prev s
  | .wordB, prev, s => if atWordB prev s then [(prev, s)] else []
  | .endA, prev, s => if s.isEmpty then [(prev, s)] else []

/-- Leftmost match at position ≥ `pos`, by fuel (structural so that concrete
texts evaluate in the kernel): returns (start, length). -/
def execFromAux (re : Re) (text : List Char) : Nat → Nat → Option (Nat × Nat)
  | 0, _ => none
  | fuel + 1, pos =>
    if pos ≤ text.length then
      let prev := if pos = 0 then none else text.get? (pos - 1)
      let s := text.drop pos
      match (mtch re prev s).head? with
      | some st => some (pos, s.length - st.2.length)
      | none =>
          if pos = text.length then none
          else execFromAux re text fuel (pos + 1)
    else none

/-- Leftmost match at position ≥ `pos`; the fuel `text.length + 1` covers
every position up to the end of the text. -/
def execFrom (re : Re) (text : List Char) (pos : Nat) : Option (Nat × Nat) :=
  execFromAux re text (text.length + 1) pos

/-- `String.prototype.match` with the `/g` flag from position `pos`; the fuel
`text.length + 1` bounds the number of matches (each step advances). -/
def matchAllAux (re : Re) (text : List Char) : Nat → Nat → List (List Char)
  | 0, _ => []
  | fuel + 1, pos =>
    match execFrom re text pos with
    | none => []
    | some (st, len) =>
        ((text.drop st).take len) :: matchAllAux re text fuel (st + max len 1)

/-- All matches of `re` in `s` (JS `s.match(re)` with `/g`, `null` as `[]`). -/
def matchAll (re : Re) (s : String) : List String :=
  (matchAllAux re s.data (s.data.length + 1) 0).map String.mk

/-- Chain a pattern list into a sequence. -/
def reSeq (l : List Re) : Re := l.foldr .seq .eps

/-- Alternation of case-insensitive literal words, in source order. -/
def altLits (ws : List String) : Re :=
  (ws.map (fun w => Re.liti w.data)).foldr .alt (.cls (fun _ => false))

/-! ## Generic list helpers shared by the embeddings -/

/-- Deduplication keeping the first occurrence of each element (accumulating
the elements already seen), as a JS `Set` built by insertion does. -/
def dedupKeepFirstAux [DecidableEq α] (seen : List α) : List α → List α
  | [] => []
  | x :: xs =>
    if x ∈ seen then dedupKeepFirstAux seen xs
    else x :: dedupKeepFirstAux (x :: seen) xs

/-- Deduplication keeping the first occurrence of each element. -/
def dedupKeepFirst [DecidableEq α] (l : List α) : List α := dedupKeepFirstAux [] l

/-- Insert `x` into a list sorted for `keep`, placing it before the first
element `y` with `keep x y`. -/
def insSorted (keep : α → α → Bool) (x : α) : List α → List α
  | [] => [x]
  | y :: ys => if keep x y then x :: y :: ys else y :: insSorted keep x ys

/-- Stable insertion sort: the output of a JS `Array.prototype.sort` (stable
since ES2019) with a comparator whose strict order is `keep`'s negation.
For a descending numeric comparator `(a, b) => b - a`, `keep x y = (y ≤ x)`
puts `x` before every later element of equal key. -/
def sortBy' (keep : α → α → Bool) : List α → List α
  | [] => []
  | x :: xs => insSorted keep x (sortBy' keep xs)

/-! ## OCR service: the compiled regular expressions (`extractMetadata`) -/

/-- The date separator class: one of dot, dash, slash. -/
def sepCls (c : Char) : Bool := c = '.' || c = '-' || c = '/'

/-- First date pattern: word boundary, 1-2 digits, separator, 1-2 digits, separator, 2-4 digits, word boundary. -/
def datePattern1 : Re :=
  reSeq [.wordB, .rep 1 (some 2) isDigitCh, .cls sepCls, .rep 1 (some 2) isDigitCh,
    .cls sepCls, .rep 2 (some 4) isDigitCh, .wordB]

/-- Second date pattern: word boundary, 4 digits, separator, 1-2 digits, separator, 1-2 digits, word boundary. -/
def datePattern2 : Re :=
  reSeq [.wordB, .rep 4 (some 4) isDigitCh, .cls sepCls, .rep 1 (some 2) isDigitCh,
    .cls sepCls, .rep 1 (some 2) isDigitCh, .wordB]

/-- The Russian month-name alternation of the third date pattern. -/
def ruMonths : List String :=
  ["января", "февраля", "марта", "апреля", "мая", "июня", "июля", "августа",
   "сентября", "октября", "ноября", "декабря"]

/-- The English month-name alternation of the fourth date pattern. -/
def enMonths : List String :=
  ["January", "February", "March", "April", "May", "June", "July", "August",
   "September", "October", "November", "December"]

/-- `\b(\d{1,2}\s+(?:months)\s+\d{4})\b` with `/gi`, for a month-name list. -/
def dateMonthPattern (months : List String) : Re :=
  reSeq [.wordB, .rep 1 (some 2) isDigitCh, .rep 1 none isWsCh, altLits months,
    .rep 1 none isWsCh, .rep 4 (some 4) isDigitCh, .wordB]

/-- The four date patterns, in source order. -/
def datePatterns : List Re :=
  [datePattern1, datePattern2, dateMonthPattern ruMonths, dateMonthPattern enMonths]

/-- `[\d\s,.]` — the amount digit-group class. -/
def amtCls (c : Char) : Bool := isDigitCh c || isWsCh c || c = ',' || c = '.'

/-- `(?:руб(?:лей)?|₽|RUB|USD|EUR|€|£|$)` with `/i` — note the final `$` is an
end-of-input anchor, not a dollar sign. -/
def currencyAlt : Re :=
  .alt (.seq (.liti "руб".data) (.alt (.liti "лей".data) .eps))
    (.alt (.liti "₽".data)
      (.alt (.liti "RUB".data)
        (.alt (.liti "USD".data)
          (.alt (.liti "EUR".data)
            (.alt (.liti "€".data)
              (.alt (.liti "£".data) .endA))))))

/-- `[\d\s,.]+\s*(?:руб(?:лей)?|₽|RUB|USD|EUR|€|£|$)` with `/gi`. -/
def amountPattern1 : Re := reSeq [.rep 1 none amtCls, .rep 0 none isWsCh, currencyAlt]

/-- `[\d\s,.]+(?:руб(?:лей)?|₽|RUB|USD|EUR|€|£|$)` with `/gi`. -/
def amountPattern2 : Re := reSeq [.rep 1 none amtCls, currencyAlt]

/-- The two amount patterns, in source order. -/
def amountPatterns : List Re := [amountPattern1, amountPattern2]

/-- `[A-Za-z0-9._%+-]` — email local part. -/
def emailLocalCls (c : Char) : Bool :=
  isAsciiAlphaCh c || isDigitCh c || c = '.' || c = '_' || c = '%' || c = '+' || c = '-'

/-- `[A-Za-z0-9.-]` — email domain part. -/
def emailDomainCls (c : Char) : Bool :=
  isAsciiAlphaCh c || isDigitCh c || c = '.' || c = '-'

/-- `[A-Z|a-z]` — the TLD class of the source (it literally includes `|`). -/
def emailTldCls (c : Char) : Bool := isAsciiAlphaCh c || c = '|'

/-- `\b[A-Za-z0-9._%+-]+@[A-Za-z0-9.-]+\.[A-Z|a-z]{2,}\b` -/
def emailPattern : Re :=
  reSeq [.wordB, .rep 1 none emailLocalCls, .lit ['@'], .rep 1 none emailDomainCls,
    .cls (fun c => c = '.'), .rep 2 none emailTldCls, .wordB]

/-- `[\s\-]` — phone separators. -/
def phoneSepCls (c : Char) : Bool := isWsCh c || c = '-'

/-- `(?:\+?7|8)?[\s\-]?\(?\d{3}\)?[\s\-]?\d{3}[\s\-]?\d{2}[\s\-]?\d{2}` -/
def phonePattern : Re :=
  reSeq [
    .alt (.alt (.seq (.rep 0 (some 1) (fun c => c = '+')) (.lit ['7'])) (.lit ['8'])) .eps,
    .rep 0 (some 1) phoneSepCls,
    .rep 0 (some 1) (fun c => c = '('),
    .rep 3 (some 3) isDigitCh,
    .rep 0 (some 1) (fun c => c = ')'),
    .rep 0 (some 1) phoneSepCls,
    .rep 3 (some 3) isDigitCh,
    .rep 0 (some 1) phoneSepCls,
    .rep 2 (some 2) isDigitCh,
    .rep 0 (some 1) phoneSepCls,
    .rep 2 (some 2) isDigitCh]

/-! ## OCR service: keyword extraction -/

/-!
JS `text.split` on a whitespace-run regex: fields between maximal whitespace
runs, with an empty leading/trailing field when the text starts/ends with
whitespace, and `[""]` for the empty string. `cur` is the current field,
reversed; `splitWsSkip` consumes the remainder of a whitespace run.
-/
mutual

def splitWsChars : List Char → List Char → List (List Char)
  | [], cur => [cur.reverse]
  | c :: cs, cur =>
    if isWsCh c then cur.reverse :: splitWsSkip cs
    else splitWsChars cs (c :: cur)

def splitWsSkip : List Char → List (List Char)
  | [] => [[]]
  | c :: cs =>
    if isWsCh c then splitWsSkip cs
    else splitWsChars cs [c]

end

/-- JS `word.replace(/[^а-яёa-z]/gi, '')`: keep only letters of the two
alphabets (the `/i` flag keeps upper case too, hence the case fold). -/
def cleanWord (w : String) : String :=
  String.mk (w.data.filter (fun c =>
    let l := jsToLower c
    ('a' ≤ l && l ≤ 'z') || (0x430 ≤ l.toNat && l.toNat ≤ 0x44F) || l.toNat = 0x451))

/-- The stop-word set of the source. -/
def stopWords : List String :=
  ["и", "в", "на", "с", "по", "для", "от", "о", "к", "за", "из", "что", "как", "это",
   "the", "and", "in", "to", "of", "is", "it", "for", "with", "on", "at", "by"]

/-- The cleaned tokens that pass the length and stop-word filters, in text
order — exactly the words counted into `wordFrequency`. -/
def validTokens (text : String) : List String :=
  (((splitWsChars (jsLowerStr text).data []).map (fun l => cleanWord (String.mk l))).filter
    (fun w => 3 < w.length && !stopWords.contains w))

/-- The property names a plain JS object (`{}` / an object literal) inherits
from `Object.prototype`: a property read with one of these names finds the
inherited member (a function, or `Object.prototype` itself for `__proto__`)
instead of `undefined`. Both `wordFrequency[cleaned]` in the OCR service and
`PERMISSIONS[permission]` in the permission layer are such reads. -/
def objectPrototypeMembers : List String :=
  ["constructor", "hasOwnProperty", "isPrototypeOf", "propertyIsEnumerable",
   "toLocaleString", "toString", "valueOf", "__defineGetter__", "__defineSetter__",
   "__lookupGetter__", "__lookupSetter__", "__proto__"]

/-- `String(inherited member)`: V8 renders the native functions as
`function name() \x7b [native code] \x7d`; `constructor` is the `Object`
function itself, and `__proto__` reads `Object.prototype`, an object. Only
`constructor` consists purely of lowercase letters, so it is the only name a
cleaned token can take. -/
def protoMemberString (w : String) : String :=
  if w = "constructor" then "function Object() \x7b [native code] \x7d"
  else if w = "__proto__" then "[object Object]"
  else "function " ++ w ++ "() \x7b [native code] \x7d"

/-- A value stored in the `wordFrequency` object: a number, or — once the
first read of an inherited-member name returned a truthy function — the
string that `+ 1` keeps extending by concatenation. -/
inductive JsVal where
  | num (n : Nat) : JsVal
  | str (s : String) : JsVal
deriving DecidableEq, Repr

/-- JS `value + 1` on a stored count: numeric increment on a number, string
concatenation once the value is a string. -/
def jsPlusOne : JsVal → JsVal
  | .num n => .num (n + 1)
  | .str s => .str (s ++ "1")

/-- The first `(wordFrequency[w] || 0) + 1` for a key with no own property:
an inherited `Object.prototype` member is truthy, so `|| 0` keeps it and
`+ 1` stringifies it; otherwise the read is `undefined` and the count is 1. -/
def bumpInit (w : String) : JsVal :=
  if w ∈ objectPrototypeMembers then .str (protoMemberString w ++ "1")
  else .num 1

/-- One step of building `wordFrequency`:
`wordFrequency[w] = (wordFrequency[w] || 0) + 1` — an own key is updated in
place, a new key is appended (insertion order, as `Object.entries` returns
for non-integer-like keys), after the prototype-chain read of `bumpInit`. -/
def bump (acc : List (String × JsVal)) (w : String) : List (String × JsVal) :=
  if acc.any (fun e => e.1 = w) then
    acc.map (fun e => if e.1 = w then (e.1, jsPlusOne e.2) else e)
  else acc ++ [(w, bumpInit w)]

/-- The `wordFrequency` object as an insertion-ordered association list. -/
def buildFreq (l : List String) : List (String × JsVal) := l.foldl bump []

/-- The value `wordFrequency[w]` holds after all occurrences of `w` in `l`
were counted: the occurrence count, except that an inherited-member name
starts from the stringified member and collects one `'1'` per occurrence. -/
def countVal (w : String) (l : List String) : JsVal :=
  if w ∈ objectPrototypeMembers then
    .str (protoMemberString w ++ String.mk (List.replicate (l.count w) '1'))
  else .num (l.count w)

/-- Lift a numeric count into the stored-value type. -/
def natPairVal (p : String × Nat) : String × JsVal := (p.1, .num p.2)

/-- The comparator `(a, b) => b[1] - a[1]` under ES `SortCompare`: numeric
when both counts are numbers; any comparison with a contaminated string
count is `NaN`, which `SortCompare` turns into +0 — an equality the stable
sort resolves by insertion order. (With a consistent comparator every stable
sort yields the same list; the contaminated case is only ever evaluated
below at two entries, where any comparison sort performs the one
comparison.) -/
def freqKeep (a b : String × JsVal) : Bool :=
  match a.2, b.2 with
  | .num x, .num y => y ≤ x
  | _, _ => true

/-- The numeric comparator on uncontaminated counts. -/
def freqKeepNat (a b : String × Nat) : Bool := b.2 ≤ a.2

/-- `Object.entries(wordFrequency).sort((a,b) => b[1]-a[1]).slice(0,10).map(([w]) => w)`. -/
def keywordsOf (text : String) : List String :=
  ((sortBy' freqKeep (buildFreq (validTokens text))).take 10).map (fun e => e.1)

/-! ## OCR service: `extractMetadata` -/

/-- The structured bag `extractMetadata` returns (the source also carries an
always-empty `names` list). -/
structure EntityBag where
  dates : List String
  amounts : List String
  emails : List String
  phones : List String
  names : List String
  keywords : List String
deriving DecidableEq, Repr

/-- The empty bag, returned for empty input. -/
def emptyBag : EntityBag := ⟨[], [], [], [], [], []⟩

/-- `OCRService.extractMetadata`: date matches of all four patterns are pushed
without deduplication; amount matches are trimmed and deduplicated within each
of the two patterns only; emails and phones are deduplicated through a `Set`;
keywords as in `keywordsOf`. -/
def extractMetadata (text : String) : EntityBag :=
  if text = "" then emptyBag
  else
    { dates := datePatterns.flatMap (fun p => matchAll p text)
      amounts := amountPatterns.flatMap (fun p => dedupKeepFirst ((matchAll p text).map jsTrim))
      emails := dedupKeepFirst (matchAll emailPattern text)
      phones := dedupKeepFirst (matchAll phonePattern text)
      names := []
      keywords := keywordsOf text }

/-! ## Access control layer (`src/middleware/permissions.js`) -/

/-- An authenticated actor, as `req.user` delivered by `authenticateToken`
(the identity provider is external and trusted verbatim). -/
structure Actor where
  id : Int
  role : String
deriving DecidableEq, Repr

/-- The static permission matrix `PERMISSIONS`. -/
def PERMISSIONS : List (String × List String) :=
  [("documents:view_own", ["admin", "manager", "user"]),
   ("documents:view_all", ["admin", "manager"]),
   ("documents:create", ["admin", "manager", "user"]),
   ("documents:edit_own", ["admin", "manager", "user"]),
   ("documents:edit_all", ["admin", "manager"]),
   ("documents:delete_own", ["admin", "manager", "user"]),
   ("documents:delete_all", ["admin"]),
   ("users:view", ["admin", "manager"]),
   ("users:manage", ["admin"]),
   ("stats:view", ["admin", "manager"]),
   ("admin:access", ["admin"])]

/-- What the property read `PERMISSIONS[permission]` yields: the matrix
entry for an own key, an inherited `Object.prototype` member for its names,
`undefined` otherwise. -/
inductive PropValue where
  | roles (rs : List String) : PropValue
  | inherited : PropValue
  | absent : PropValue
deriving DecidableEq, Repr

/-- The prototype-chain read `PERMISSIONS[permission]`. -/
def permissionsAccess (permission : String) : PropValue :=
  match PERMISSIONS.lookup permission with
  | some rs => .roles rs
  | none =>
    if permission ∈ objectPrototypeMembers then .inherited else .absent

/-- `hasPermission(user, permission)`: false for a missing user; for a
present user the read of `PERMISSIONS[permission]` is truthiness-checked —
`undefined` gives false, a matrix entry gives role membership, but an
inherited `Object.prototype` member is truthy and not an array, so
`allowedRoles.includes(user.role)` throws a TypeError (the `.error` case). -/
def hasPermission (user : Option Actor) (permission : String) : Except String Bool :=
  match user with
  | none => .ok false
  | some u =>
    match permissionsAccess permission with
    | .roles allowedRoles => .ok (allowedRoles.contains u.role)
    | .inherited => .error "TypeError: allowedRoles.includes is not a function"
    | .absent => .ok false

/-- An HTTP error response (status code and error label). -/
structure ApiErr where
  status : Nat
  error : String
deriving DecidableEq, Repr

/-- The `checkPermission(permission)` middleware: 401 without a user, 403
when `hasPermission` answers false; a TypeError thrown inside the middleware
is caught by express's default error handler as a 500 (unreachable for the
literal permission names the routes pass, which are own keys). -/
def checkPermission (permission : String) (user : Option Actor) : Except ApiErr Unit :=
  match user with
  | none => .error ⟨401, "Non authentifié"⟩
  | some u =>
    match hasPermission (some u) permission with
    | .error _ => .error ⟨500, "Erreur serveur"⟩
    | .ok true => .ok ()
    | .ok false => .error ⟨403, "Accès interdit"⟩

/-! ## The SQLite data model (`src/config/database.js`) -/

/-- A row of the `documents` table. `tags` holds the stored JSON text
(schema default `'[]'`). -/
structure DocRow where
  id : Int
  userId : Int
  title : String
  description : String
  category : String
  tags : String
  status : String
  createdAt : String
  updatedAt : String
deriving DecidableEq, Repr

/-- The `extracted_data` JSON column of a page as the ingestion route writes
it: the flag quadruple, plus the entity bag when OCR succeeded. (In the
source the successful bag arrives as `rawMetadata`, a JSON string whose
characters the object spread scatters into index keys; no reader of the
column depends on that, so the bag is kept structured here. On the failure
path the field is absent and on the skip path it is an empty object — both
are `none`.) -/
structure StoredExtractedData where
  entities : Option EntityBag
  isPdf : Bool
  isWord : Bool
  ocrAttempted : Bool
  ocrSuccess : Bool
deriving DecidableEq, Repr

/-- A row of the `document_pages` table. -/
structure PageRow where
  id : Int
  documentId : Int
  fileName : String
  originalName : String
  filePath : String
  fileSize : Int
  mimeType : String
  pageOrder : Nat
  ocrText : Option String
  extractedData : StoredExtractedData
  createdAt : String
deriving DecidableEq, Repr

/-- The database: both tables plus the AUTOINCREMENT counters. -/
structure Db where
  docs : List DocRow
  pages : List PageRow
  nextDocId : Int
  nextPageId : Int
deriving DecidableEq, Repr

/-- `SELECT user_id FROM documents WHERE id = ?` (first matching row). -/
def findDoc (db : Db) (docId : Int) : Option DocRow :=
  db.docs.find? (fun d => d.id == docId)

/-- The `checkDocumentOwnership` middleware: admins and managers pass
unconditionally; for everyone else the document must exist and be owned. -/
def checkDocumentOwnership (db : Db) (actor : Actor) (docId : Int) : Except ApiErr Unit :=
  if actor.role = "admin" then .ok ()
  else if actor.role = "manager" then .ok ()
  else
    match findDoc db docId with
    | none => .error ⟨404, "Non trouvé"⟩
    | some d =>
      if d.userId ≠ actor.id then .error ⟨403, "Accès interdit"⟩
      else .ok ()

/-! ## OCR service: `recognizeText` and `processImage`

The Tesseract engine and the file system are external capabilities, passed
as oracles: `fsExists` is `fs.existsSync`, `engine` is a worker's
`recognize` (which may fail). -/

/-- Result shape of `OCRService.recognizeText` (the per-word boxes are not
persisted and are omitted). -/
structure RecogResult where
  success : Bool
  text : String
  confidence : Int
deriving DecidableEq, Repr

/-- `recognizeText`: a missing file or an engine error is caught and becomes
`success: false` with empty text — never an exception. -/
def recognizeText (fsExists : String → Bool) (engine : String → Except String (String × Int))
    (imagePath : String) : RecogResult :=
  if !fsExists imagePath then ⟨false, "", 0⟩
  else
    match engine imagePath with
    | .ok (t, c) => ⟨true, t, c⟩
    | .error _ => ⟨false, "", 0⟩

/-- Result shape of `OCRService.processImage`. On failure the source returns
only `{success, error}` — no `text`, `confidence` or `rawMetadata` fields —
hence the `Option`s. -/
structure ProcResult where
  success : Bool
  text : Option String
  confidence : Option Int
  rawMetadata : Option EntityBag
deriving DecidableEq, Repr

/-- `processImage`: recognize, then extract metadata from the recognized
text; a recognition failure short-circuits to a failure result. -/
def processImage (fsExists : String → Bool) (engine : String → Except String (String × Int))
    (imagePath : String) : ProcResult :=
  let r := recognizeText fsExists engine imagePath
  if !r.success then ⟨false, none, none, none⟩
  else ⟨true, some r.text, some r.confidence, some (extractMetadata r.text)⟩

/-! ## Ingestion (`POST /api/documents`) -/

/-- An uploaded file as multer delivers it. -/
structure FileInfo where
  filename : String
  originalname : String
  path : String
  size : Int
  mimetype : String
deriving DecidableEq, Repr

/-- `file.mimetype.includes('pdf') || file.originalname.toLowerCase().endsWith('.pdf')` -/
def isPdfFile (f : FileInfo) : Bool :=
  jsIncludes f.mimetype "pdf" || jsEndsWith (jsLowerStr f.originalname) ".pdf"

/-- The word-like extension test of the ingestion route. -/
def isWordFile (f : FileInfo) : Bool :=
  let n := jsLowerStr f.originalname
  jsEndsWith n ".doc" || jsEndsWith n ".docx" || jsEndsWith n ".txt" ||
    jsEndsWith n ".rtf" || jsEndsWith n ".odt"

/-- The route's initial `ocrResult` value
`{ success: false, text: '', confidence: 0, rawMetadata: {} }`
(an empty object spreads to no fields, hence `none`). -/
def defaultProcResult : ProcResult := ⟨false, some "", some 0, none⟩

/-- The OCR outcome the route uses for one file: OCR only for images, the
default result for pdf/word-like files (OCR skipped, not attempted). -/
def ocrResultFor (fsExists : String → Bool) (engine : String → Except String (String × Int))
    (f : FileInfo) : ProcResult :=
  if !isPdfFile f && !isWordFile f then processImage fsExists engine f.path
  else defaultProcResult

/-- The page row the loop inserts for the file at 0-based index `idx`
(`page_order` is `i + 1`; `ocr_text` is `ocrResult.text || ''`). -/
def pageFor (fsExists : String → Bool) (engine : String → Except String (String × Int))
    (docId pid : Int) (now : String) (idx : Nat) (f : FileInfo) : PageRow :=
  let isPdf := isPdfFile f
  let isWord := isWordFile f
  let pr := ocrResultFor fsExists engine f
  { id := pid, documentId := docId, fileName := f.filename, originalName := f.originalname,
    filePath := f.path, fileSize := f.size, mimeType := f.mimetype, pageOrder := idx + 1,
    ocrText := some (pr.text.getD ""),
    extractedData := ⟨pr.rawMetadata, isPdf, isWord, !isPdf && !isWord, pr.success⟩,
    createdAt := now }

/-- The per-file loop: pages inserted in upload order with consecutive ids. -/
def processFiles (fsExists : String → Bool) (engine : String → Except String (String × Int))
    (docId : Int) (now : String) : Int → Nat → List FileInfo → List PageRow
  | _, _, [] => []
  | pid, idx, f :: rest =>
    pageFor fsExists engine docId pid now idx f ::
      processFiles fsExists engine docId now (pid + 1) (idx + 1) rest

/-- One entry of the `processedPages` response array. -/
structure ProcessedPage where
  pageOrder : Nat
  fileName : String
  isPdf : Bool
  isWord : Bool
  ocrSuccess : Bool
  confidence : Option Int
deriving DecidableEq, Repr

/-- The `processedPages` summary, in upload order. -/
def processedList (fsExists : String → Bool) (engine : String → Except String (String × Int)) :
    Nat → List FileInfo → List ProcessedPage
  | _, [] => []
  | idx, f :: rest =>
    let pr := ocrResultFor fsExists engine f
    ⟨idx + 1, f.originalname, isPdfFile f, isWordFile f, pr.success, pr.confidence⟩ ::
      processedList fsExists engine (idx + 1) rest

/-- The 201 response body of the ingestion route. -/
structure IngestResp where
  documentId : Int
  pagesProcessed : Nat
  processedPages : List ProcessedPage
  hasPdf : Bool
  hasWord : Bool
deriving DecidableEq, Repr

/-- `INSERT INTO documents (...) VALUES (..., 'processing')` — the document
is created with status `processing`; `today` is the locale-formatted date
used for the default title, `now` the SQL `CURRENT_TIMESTAMP`. -/
def ingestStart (db : Db) (actor : Actor) (title description category : Option String)
    (today now : String) : Db × Int :=
  let d : DocRow :=
    { id := db.nextDocId, userId := actor.id,
      title := title.getD ("Document du " ++ today),
      description := description.getD "",
      category := category.getD "general",
      tags := "[]", status := "processing", createdAt := now, updatedAt := now }
  ({ db with docs := db.docs ++ [d], nextDocId := db.nextDocId + 1 }, d.id)

/-- `UPDATE documents SET status = 'ready', updated_at = CURRENT_TIMESTAMP
WHERE id = ?` — the single status transition, run after the loop. -/
def ingestFinish (db : Db) (docId : Int) (now : String) : Db :=
  { db with docs := db.docs.map (fun d =>
      if d.id == docId then { d with status := "ready", updatedAt := now } else d) }

/-- `POST /api/documents`: permission check, validation, document creation,
per-file loop, status transition, 201 response. -/
def postDocuments (fsExists : String → Bool) (engine : String → Except String (String × Int))
    (db : Db) (actor : Actor) (files : List FileInfo)
    (title description category : Option String) (today now : String) :
    Except ApiErr (Db × IngestResp) :=
  match checkPermission "documents:create" (some actor) with
  | .error e => .error e
  | .ok _ =>
  if files.isEmpty then
    .error ⟨400, "Erreur de validation"⟩
  else
    let (db1, docId) := ingestStart db actor title description category today now
    let pages := processFiles fsExists engine docId now db1.nextPageId 0 files
    let pps := processedList fsExists engine 0 files
    let db2 : Db :=
      { db1 with
        pages := db1.pages ++ pages
        nextPageId := db1.nextPageId + files.length }
    .ok (ingestFinish db2 docId now,
      { documentId := docId, pagesProcessed := files.length, processedPages := pps,
        hasPdf := pps.any (fun p => p.isPdf), hasWord := pps.any (fun p => p.isWord) })

/-! ## Document update and delete routes -/

/-- A JSON body field as express delivers it: absent (`undefined`), JSON
`null`, or a string. better-sqlite3 can bind `null` but throws on
`undefined`. -/
inductive JStr where
  | undef : JStr
  | null : JStr
  | str (s : String) : JStr
deriving DecidableEq, Repr

/-- `COALESCE(?, col)` for a bound nullable value. -/
def jstrCoalesce : JStr → String → String
  | .str s, _ => s
  | _, old => old

/-- JSON string escaping (quote and backslash; the tags in play carry no
control characters). -/
def jsonEscChar (c : Char) : List Char :=
  if c = '"' || c = '\\' then ['\\', c] else [c]

/-- `JSON.stringify` of a string. -/
def jsonStr (s : String) : String :=
  "\"" ++ String.mk (s.data.flatMap jsonEscChar) ++ "\""

/-- `JSON.stringify` of an array of strings. -/
def jsonArr (l : List String) : String :=
  "[" ++ String.intercalate "," (l.map jsonStr) ++ "]"

/-- `PUT /api/documents/:id`: ownership check, `documents:edit_own`
permission, then a COALESCE update of title/description/category/tags/status.
An absent (`undefined`) title, description, category or status cannot be
bound and makes the statement throw (caught as a 500); absent `tags` is
explicitly converted to `null` by `tags ? JSON.stringify(tags) : null`. -/
def putDocument (db : Db) (actor : Actor) (docId : Int)
    (title description category : JStr) (tags : Option (List String)) (status : JStr)
    (now : String) : Except ApiErr Db :=
  match checkDocumentOwnership db actor docId with
  | .error e => .error e
  | .ok _ =>
  match checkPermission "documents:edit_own" (some actor) with
  | .error e => .error e
  | .ok _ =>
  if title = .undef || description = .undef || category = .undef || status = .undef then
    .error ⟨500, "Erreur serveur"⟩
  else
    .ok { db with docs := db.docs.map (fun d =>
      if d.id == docId then
        { d with title := jstrCoalesce title d.title,
                 description := jstrCoalesce description d.description,
                 category := jstrCoalesce category d.category,
                 tags := match tags with | some l => jsonArr l | none => d.tags,
                 status := jstrCoalesce status d.status,
                 updatedAt := now }
      else d) }

/-- `DELETE /api/documents/:id`: ownership check, `documents:delete_own`
permission, blob unlinks (external), then `DELETE FROM documents WHERE id=?`
whose `ON DELETE CASCADE` removes the document's pages. -/
def deleteDocument (db : Db) (actor : Actor) (docId : Int) : Except ApiErr Db :=
  match checkDocumentOwnership db actor docId with
  | .error e => .error e
  | .ok _ =>
  match checkPermission "documents:delete_own" (some actor) with
  | .error e => .error e
  | .ok _ =>
  .ok { db with docs := db.docs.filter (fun d => !(d.id == docId)),
                pages := db.pages.filter (fun p => !(p.documentId == docId)) }

/-! ## Page update route (`PUT /api/documents/:id/pages/:pageId`) -/

/-- The columns of `document_pages` as created by `initDatabase` (no
migration ever alters this table). -/
def documentPagesColumns : List String :=
  ["id", "document_id", "file_name", "original_name", "file_path", "file_size",
   "mime_type", "page_order", "ocr_text", "extracted_data", "created_at"]

/-- The columns the page-update statement SETs. -/
def pageUpdateSetColumns : List String := ["ocr_text", "extracted_data", "updated_at"]

/-- `db.prepare` succeeds only if every referenced column exists. -/
def pageUpdatePrepareOk : Bool :=
  pageUpdateSetColumns.all (fun c => documentPagesColumns.contains c)

/-- `PUT /api/documents/:id/pages/:pageId`: ownership check,
`documents:edit_own` permission, then the UPDATE statement. The statement
names `updated_at`, which `document_pages` does not have, so `db.prepare`
throws and the route answers 500. (Were the statement preparable, it would
overwrite `ocr_text` and replace the `extracted_data` column with the
client-sent JSON, which carries no ingestion flags.) -/
def putDocumentPage (db : Db) (actor : Actor) (docId pageId : Int)
    (ocrText : Option String) (extractedData : Option EntityBag) : Except ApiErr Db :=
  match checkDocumentOwnership db actor docId with
  | .error e => .error e
  | .ok _ =>
  match checkPermission "documents:edit_own" (some actor) with
  | .error e => .error e
  | .ok _ =>
  if pageUpdatePrepareOk then
    .ok { db with pages := db.pages.map (fun p =>
      if p.id == pageId && p.documentId == docId then
        { p with ocrText := ocrText,
                 extractedData := ⟨extractedData, false, false, false, false⟩ }
      else p) }
  else .error ⟨500, "Erreur serveur"⟩

/-! ## Search route (`GET /api/search`)

The route builds one SQL string by template concatenation and two
`String.replace` calls, then executes it with a positional parameter list.
The embedding keeps (a) the list of `?` placeholders in their textual order,
each tagged with the clause it belongs to, and (b) the parameter list in the
order the code pushes values; better-sqlite3 refuses to run a statement
whose placeholder and parameter counts differ. -/

/-- A value bound to a SQL placeholder. -/
inductive SqlValue where
  | int (i : Int) : SqlValue
  | text (s : String) : SqlValue
deriving DecidableEq, Repr

/-- The `'%' + q + '%'` pattern pushed for every text condition. -/
def likePattern (q : String) : String := "%" ++ q ++ "%"

/-- The query-string inputs of `GET /api/search`. An absent or empty query
parameter is `none` (both are falsy at every use in the route); `page` and
`limit` are the numeric values `parseInt` produces (defaults 1 and 20). -/
structure SearchReq where
  q : Option String
  type : Option String
  dateFrom : Option String
  dateTo : Option String
  category : Option String
  hasAmount : Option String
  hasDate : Option String
  page : Option Nat
  limit : Option Nat
deriving DecidableEq, Repr

/-- `const searchType = type || 'all'`. -/
def searchTypeOf (req : SearchReq) : String := req.type.getD "all"

/-- Whether the route splices the `CASE WHEN dp.ocr_text LIKE ? ...` column
into the SELECT list (q present and type `all` or `content`). -/
def caseClause (req : SearchReq) : Bool :=
  req.q.isSome && (searchTypeOf req = "all" || searchTypeOf req = "content")

/-- Whether the route replaces the `WHERE d.user_id = ?` text by the
`AND (d.title LIKE ? OR d.description LIKE ? OR d.tags LIKE ?)` text
(q present and type `all` or `document`) — the replacement deletes the
scope clause and attaches the title condition to the JOIN's ON clause. -/
def docClause (req : SearchReq) : Bool :=
  req.q.isSome && (searchTypeOf req = "all" || searchTypeOf req = "document")

/-- Tags for the `?` placeholders of the main query, by the clause each
belongs to. -/
inductive Slot where
  | scase | sscope | sdocTitle | sdocDesc | sdocTags
  | sdateFrom | sdateTo | scategory
  | samt1 | samt2 | samt3 | sdate
  | slimit | soffset
deriving DecidableEq, Repr

/-- The placeholders of the built SQL text, in textual order: the CASE column
sits in the SELECT list (before the WHERE), the doc-condition text replaces
the scope clause in place, date/category filters are appended before
GROUP BY, the HAVING clauses after it, LIMIT/OFFSET last. -/
def slotsOf (req : SearchReq) : List Slot :=
  (if caseClause req then [.scase] else []) ++
  (if docClause req then [.sdocTitle, .sdocDesc, .sdocTags] else [.sscope]) ++
  (if req.dateFrom.isSome then [.sdateFrom] else []) ++
  (if req.dateTo.isSome then [.sdateTo] else []) ++
  (if req.category.isSome then [.scategory] else []) ++
  (if req.hasAmount = some "true" then [.samt1, .samt2, .samt3] else []) ++
  (if req.hasDate = some "true" then [.sdate] else []) ++
  [.slimit, .soffset]

/-- The parameter list in the order the code pushes values: `userId` first,
then the CASE pattern, then the three doc-condition patterns, then the
filters, the HAVING patterns, and LIMIT/OFFSET. -/
def paramsOf (actorId : Int) (req : SearchReq) : List SqlValue :=
  [.int actorId] ++
  (if caseClause req then [.text (likePattern (req.q.getD ""))] else []) ++
  (if docClause req then
     [.text (likePattern (req.q.getD "")), .text (likePattern (req.q.getD "")),
      .text (likePattern (req.q.getD ""))] else []) ++
  (if req.dateFrom.isSome then [.text (req.dateFrom.getD "")] else []) ++
  (if req.dateTo.isSome then [.text (req.dateTo.getD "")] else []) ++
  (if req.category.isSome then [.text (req.category.getD "")] else []) ++
  (if req.hasAmount = some "true" then [.text "%руб%", .text "%RUB%", .text "%USD%"] else []) ++
  (if req.hasDate = some "true" then [.text "%__.__.____%"] else []) ++
  [.int (SearchReq.limit req |>.getD 20 : Nat),
   .int (((SearchReq.page req |>.getD 1) - 1) * (SearchReq.limit req |>.getD 20) : Nat)]

/-- Positional binding: pair placeholders and values in order; better-sqlite3
throws a `RangeError` when the counts differ. -/
def binding (actorId : Int) (req : SearchReq) : Option (List (Slot × SqlValue)) :=
  if (slotsOf req).length = (paramsOf actorId req).length then
    some ((slotsOf req).zip (paramsOf actorId req))
  else none

/-! ### SQLite value semantics for the bound comparisons -/

/-- SQLite's text-to-integer coercion when a TEXT value meets an INTEGER
column: optional surrounding whitespace, optional sign, digits — anything
else keeps the value a non-numeric text (which never equals an integer). -/
def intAffinity (s : String) : Option Int :=
  let l := s.data.dropWhile isWsCh
  let neg : Bool := l.head? = some '-'
  let l1 := if l.head? = some '-' || l.head? = some '+' then l.tail else l
  let ds := l1.takeWhile isDigitCh
  let rest := (l1.dropWhile isDigitCh).dropWhile isWsCh
  if ds.isEmpty || !rest.isEmpty then none
  else
    let n : Nat := ds.foldl (fun n c => n * 10 + (c.toNat - 48)) 0
    some (if neg then -(n : Int) else (n : Int))

/-- `d.user_id = ?` for an INTEGER column. -/
def sqlEqInt (i : Int) (v : SqlValue) : Bool :=
  match v with
  | .int j => i == j
  | .text s => match intAffinity s with | some j => i == j | none => false

/-- `d.category = ?` for a TEXT column (an integer value never equals a
non-numeric text; the categories in play are texts). -/
def sqlEqText (s : String) (v : SqlValue) : Bool :=
  match v with
  | .text t => s == t
  | .int _ => false

/-- `col >= ?` on a TEXT column: byte-wise text comparison; any integer value
sorts below all texts. -/
def sqlGeText (s : String) (v : SqlValue) : Bool :=
  match v with
  | .text t => decide (t ≤ s)
  | .int _ => true

/-- `col <= ?` on a TEXT column. -/
def sqlLeText (s : String) (v : SqlValue) : Bool :=
  match v with
  | .text t => decide (s ≤ t)
  | .int _ => false

/-- SQLite `LIKE` by fuel (every step shortens pattern or text, so
`p.length + t.length + 1` always suffices): `%` any run, `_` any one
character, other characters compared with ASCII-only case folding. -/
def likeCharsAux : Nat → List Char → List Char → Bool
  | 0, _, _ => false
  | _ + 1, [], [] => true
  | _ + 1, [], _ :: _ => false
  | fuel + 1, '%' :: ps, t =>
    likeCharsAux fuel ps t ||
      (match t with
       | [] => false
       | _ :: ts => likeCharsAux fuel ('%' :: ps) ts)
  | fuel + 1, '_' :: ps, t =>
    (match t with
     | [] => false
     | _ :: ts => likeCharsAux fuel ps ts)
  | _ + 1, _ :: _, [] => false
  | fuel + 1, p :: ps, c :: ts => (asciiLower p = asciiLower c) && likeCharsAux fuel ps ts

/-- SQLite `LIKE` on a pattern and a text. -/
def likeChars (p t : List Char) : Bool := likeCharsAux (p.length + t.length + 1) p t

/-- `s LIKE v` for a bound value (an integer value is converted to its
decimal text). -/
def sqlLike (s : String) (v : SqlValue) : Bool :=
  match v with
  | .text p => likeChars p.data s.data
  | .int i => likeChars (toString i).data s.data

/-- `s LIKE v` where `s` may be NULL (NULL LIKE anything is not true). -/
def sqlLikeOpt (s : Option String) (v : SqlValue) : Bool :=
  match s with
  | some s => sqlLike s v
  | none => false

/-! ### Evaluating the main query -/

/-- The value bound to the first placeholder of a given clause. -/
def slotLookup (l : List (Slot × SqlValue)) (s : Slot) : Option SqlValue :=
  match l with
  | [] => none
  | (k, v) :: rest => if k = s then some v else slotLookup rest s

/-- The WHERE predicate of the built query on a document row. When the
doc-condition replacement ran there is no scope clause at all (the lookup
finds no `sscope` binding) and the title/description/tags conditions sit in
the JOIN's ON clause, which a LEFT JOIN never uses to drop document rows. -/
def wherePass (bound : List (Slot × SqlValue)) (d : DocRow) : Bool :=
  (match slotLookup bound .sscope with | some v => sqlEqInt d.userId v | none => true) &&
  (match slotLookup bound .sdateFrom with | some v => sqlGeText d.createdAt v | none => true) &&
  (match slotLookup bound .sdateTo with | some v => sqlLeText d.createdAt v | none => true) &&
  (match slotLookup bound .scategory with | some v => sqlEqText d.category v | none => true)

/-- Split at a separator character (the route splits at `','` and `'|'`),
structurally so that concrete runs evaluate in the kernel. `cur` is the
current field, reversed. -/
def splitOnChar (sep : Char) : List Char → List Char → List (List Char)
  | [], cur => [cur.reverse]
  | c :: cs, cur =>
    if c = sep then cur.reverse :: splitOnChar sep cs []
    else splitOnChar sep cs (c :: cur)

/-- JS `s.split(sep)` for a one-character separator. -/
def splitStr (sep : Char) (s : String) : List String :=
  (splitOnChar sep s.data []).map String.mk

/-- Concatenation with a separator (`GROUP_CONCAT`'s join). -/
def joinWith (sep : String) : List String → String
  | [] => ""
  | [x] => x
  | x :: xs => x ++ sep ++ joinWith sep xs

/-- One `dp.id || '|' || dp.page_order || '|' || COALESCE(dp.ocr_text, '')`
join-row entry. -/
def pageEntryStr (p : PageRow) : String :=
  toString p.id ++ "|" ++ toString p.pageOrder ++ "|" ++ (p.ocrText.getD "")

/-- `GROUP_CONCAT(...)` over the LEFT-JOINed pages of a document: NULL when
the document has no pages. -/
def pagesConcat (db : Db) (d : DocRow) : Option String :=
  let ps := db.pages.filter (fun p => p.documentId == d.id)
  if ps.isEmpty then none
  else some (joinWith "," (ps.map pageEntryStr))

/-- The HAVING filters (present only when `hasAmount` / `hasDate` is the
string `'true'`), evaluated on the concatenated pages column. -/
def havingPass (bound : List (Slot × SqlValue)) (pcat : Option String) : Bool :=
  (match slotLookup bound .samt1, slotLookup bound .samt2, slotLookup bound .samt3 with
   | some v1, some v2, some v3 => sqlLikeOpt pcat v1 || sqlLikeOpt pcat v2 || sqlLikeOpt pcat v3
   | _, _, _ => true) &&
  (match slotLookup bound .sdate with | some v => sqlLikeOpt pcat v | none => true)

/-- `ORDER BY d.created_at DESC`. -/
def docKeep (a b : DocRow) : Bool := decide (b.createdAt ≤ a.createdAt)

/-- The document rows the main query returns: WHERE filter, grouping,
HAVING filter, descending order, OFFSET, LIMIT. -/
def selectedDocs (db : Db) (bound : List (Slot × SqlValue)) (limit offset : Nat) :
    List DocRow :=
  (((sortBy' docKeep
    ((db.docs.filter (wherePass bound)).filter
      (fun d => havingPass bound (pagesConcat db d)))).drop offset).take limit)

/-! ### Result formatting -/

/-- JS `parseInt`: leading whitespace, optional sign, maximal digit prefix
(`NaN` — unreachable for the digit strings produced here — as 0). -/
def jsParseInt (s : String) : Int :=
  let l := s.data.dropWhile isWsCh
  let signAndRest : Bool × List Char :=
    match l with
    | '-' :: r => (true, r)
    | '+' :: r => (false, r)
    | _ => (false, l)
  let ds := signAndRest.2.takeWhile isDigitCh
  if ds.isEmpty then 0
  else
    let n : Nat := ds.foldl (fun n c => n * 10 + (c.toNat - 48)) 0
    if signAndRest.1 then -(n : Int) else (n : Int)

/-- A formatted page entry with its highlight windows. -/
structure MatchedPage where
  id : Int
  pageOrder : Int
  highlights : List String
deriving DecidableEq, Repr

/-- Formatting of one `','`-separated entry: split at `'|'`, destructure the
first three parts, and build the ±50-character highlight window around the
first case-insensitive occurrence of `q`. -/
def formatPage (q? : Option String) (part : String) : MatchedPage :=
  let parts := splitStr '|' part
  let idS := parts.getD 0 ""
  let orderS := parts.getD 1 ""
  let ocrText := parts.getD 2 ""
  let highlights :=
    match q? with
    | some q =>
      if ocrText ≠ "" && jsIncludes (jsLowerStr ocrText) (jsLowerStr q) then
        let index := (firstIndexOfSub (jsLowerStr ocrText).data (jsLowerStr q).data).getD 0
        let start := index - 50
        let stop := min ocrText.length (index + q.length + 50)
        [String.mk ((ocrText.data.drop start).take (stop - start))]
      else []
    | none => []
  ⟨jsParseInt idS, jsParseInt orderS, highlights⟩

/-- A formatted search result (the stored `tags` JSON text is carried
through; the route parses it into the array it encodes). -/
structure SearchResult where
  id : Int
  title : String
  description : String
  category : String
  tags : String
  status : String
  createdAt : String
  updatedAt : String
  matchedPages : List MatchedPage
  totalPages : Nat
deriving DecidableEq, Repr

/-- The per-document result mapping of the route. -/
def formatDoc (db : Db) (q? : Option String) (d : DocRow) : SearchResult :=
  let pages :=
    match pagesConcat db d with
    | none => []
    | some s => (splitStr ',' s).map (formatPage q?)
  { id := d.id, title := d.title, description := d.description, category := d.category,
    tags := d.tags, status := d.status, createdAt := d.createdAt, updatedAt := d.updatedAt,
    matchedPages := pages.filter (fun p => !p.highlights.isEmpty),
    totalPages := pages.length }

/-! ### The count query and the response -/

/-- The WHERE predicate of the count query (its placeholders and parameters
always align, so the bound values are the pushed texts): scope, then — for
any `q`, whatever `type` says — title OR description OR some page's OCR
text, then the date and category filters. It has no HAVING part. -/
def countPred (db : Db) (actorId : Int) (req : SearchReq) (d : DocRow) : Bool :=
  (d.userId == actorId) &&
  (match req.q with
   | some q =>
     let lp := likePattern q
     sqlLike d.title (.text lp) || sqlLike d.description (.text lp) ||
       (db.pages.filter (fun p => p.documentId == d.id)).any
         (fun p => sqlLikeOpt p.ocrText (.text lp))
   | none => true) &&
  (match req.dateFrom with | some v => sqlGeText d.createdAt (.text v) | none => true) &&
  (match req.dateTo with | some v => sqlLeText d.createdAt (.text v) | none => true) &&
  (match req.category with | some v => sqlEqText d.category (.text v) | none => true)

/-- `SELECT COUNT(DISTINCT d.id) ...` under `countPred`. -/
def countTotal (db : Db) (actorId : Int) (req : SearchReq) : Nat :=
  (dedupKeepFirst ((db.docs.filter (countPred db actorId req)).map (fun d => d.id))).length

/-- The pagination object `{page, limit, total, pages}`. -/
structure Pagination where
  page : Nat
  limit : Nat
  total : Nat
  pages : Nat
deriving DecidableEq, Repr

/-- `Math.ceil(total / limit)` on naturals (limit 0 never occurs: the
default is 20). -/
def ceilDiv (total limit : Nat) : Nat := (total + limit - 1) / limit

/-- The 200 response body of the search route. -/
structure SearchResp where
  results : List SearchResult
  pagination : Pagination
deriving DecidableEq, Repr

/-- `GET /api/search`: validation (at least one filter), statement
preparation (`hasAmount` and `hasDate` together append two HAVING clauses —
a SQL syntax error), positional binding (a count mismatch throws), then the
main query, the count query and the response. -/
def searchDocuments (db : Db) (actor : Actor) (req : SearchReq) : Except ApiErr SearchResp :=
  if !(req.q.isSome || req.dateFrom.isSome || req.dateTo.isSome || req.category.isSome ||
      req.hasAmount.isSome || req.hasDate.isSome) then
    .error ⟨400, "Ошибка валидации"⟩
  else if req.hasAmount = some "true" && req.hasDate = some "true" then
    .error ⟨500, "Ошибка сервера"⟩
  else
    match binding actor.id req with
    | none => .error ⟨500, "Ошибка сервера"⟩
    | some bound =>
      let limit := req.limit.getD 20
      let offset := (req.page.getD 1 - 1) * limit
      let total := countTotal db actor.id req
      .ok { results := (selectedDocs db bound limit offset).map (formatDoc db req.q),
            pagination :=
              { page := req.page.getD 1, limit := limit, total := total,
                pages := ceilDiv total limit } }

/-! ## Spec-side reference definition for the keyword ranking -/

/-- Modelled from the spec: §4.2 keywords — “ranked by frequency descending,
ties broken by first-occurrence order, truncated to top 10” — stated over
the distinct valid tokens in first-occurrence order, to be compared with
the implementation's `keywordsOf`. -/
def keywordsSpec (text : String) : List String :=
  let toks := validTokens text
  (sortBy' (fun a b => toks.count b ≤ toks.count a) (dedupKeepFirst toks)).take 10

/-! ## Concrete fixtures for witnesses and counterexamples -/

/-- A document owned by user 1, already `ready`. -/
def exDocA : DocRow :=
  ⟨1, 1, "t", "", "general", "[]", "ready", "2024-01-01 00:00:00", "2024-01-01 00:00:00"⟩

/-- Its single page, with OCR text `hello`. -/
def exPageA : PageRow :=
  ⟨1, 1, "f.png", "f.png", "/u/f.png", 5, "image/png", 1, some "hello",
   ⟨none, false, false, true, true⟩, "2024-01-01 00:00:00"⟩

/-- A one-document database owned by user 1. -/
def exDbA : Db := ⟨[exDocA], [exPageA], 2, 2⟩

/-- The search request with every parameter absent. -/
def noSearchReq : SearchReq := ⟨none, none, none, none, none, none, none, none, none⟩

/-- A document owned by user 10. -/
def exDocB : DocRow :=
  ⟨1, 10, "t", "", "general", "[]", "ready", "2024-01-01 00:00:00", "2024-01-01 00:00:00"⟩

/-- Its page. -/
def exPageB : PageRow :=
  ⟨1, 1, "f.png", "f.png", "/u/f.png", 5, "image/png", 1, some "hello",
   ⟨none, false, false, true, true⟩, "2024-01-01 00:00:00"⟩

/-- A one-document database owned by user 10. -/
def exDbB : Db := ⟨[exDocB], [exPageB], 2, 2⟩

/-- An uploaded image file. -/
def exFileImg : FileInfo := ⟨"u.png", "a.png", "/u/u.png", 3, "image/png"⟩

/-- An uploaded PDF file. -/
def exFilePdf : FileInfo := ⟨"v.pdf", "b.pdf", "/u/v.pdf", 4, "application/pdf"⟩

/-- A file system on which no path exists. -/
def fsNone : String → Bool := fun _ => false

/-- An OCR engine that always fails. -/
def engFail : String → Except String (String × Int) := fun _ => .error "boom"

deriving instance DecidableEq for Except

/-- The database after ingesting `[exFilePdf]` into `exDbA` (permission ok,
OCR skipped for the PDF, status transitioned to ready). -/
def exIngestDb1 : Db :=
  ⟨[exDocA, ⟨2, 1, "Document du d", "", "general", "[]", "ready", "t", "t"⟩],
   [exPageA,
    ⟨2, 2, "v.pdf", "b.pdf", "/u/v.pdf", 4, "application/pdf", 1, some "",
     ⟨none, true, false, false, false⟩, "t"⟩], 3, 3⟩

/-- The matching 201 response body. -/
def exIngestResp1 : IngestResp :=
  ⟨2, 1, [⟨1, "b.pdf", true, false, false, some 0⟩], true, false⟩

/-- The database after ingesting `[exFileImg, exFilePdf]` into `exDbA` with a
file system on which OCR fails for the image. -/
def exIngestDb2 : Db :=
  ⟨[exDocA, ⟨2, 1, "Document du d", "", "general", "[]", "ready", "t", "t"⟩],
   [exPageA,
    ⟨2, 2, "u.png", "a.png", "/u/u.png", 3, "image/png", 1, some "",
     ⟨none, false, false, true, false⟩, "t"⟩,
    ⟨3, 2, "v.pdf", "b.pdf", "/u/v.pdf", 4, "application/pdf", 2, some "",
     ⟨none, true, false, false, false⟩, "t"⟩], 3, 4⟩

/-- The matching 201 response body. -/
def exIngestResp2 : IngestResp :=
  ⟨2, 2, [⟨1, "a.png", false, false, false, none⟩, ⟨2, "b.pdf", true, false, false, some 0⟩],
   true, false⟩

/-- `exDbA` after the owner PUTs `status: "processing"` onto document 1. -/
def exPutDb : Db :=
  ⟨[⟨1, 1, "t", "", "general", "[]", "processing", "2024-01-01 00:00:00", "t"⟩],
   [exPageA], 2, 2⟩

/-- The search result row for `exDocA` (no `q`, hence no highlights). -/
def exSearchResult : SearchResult :=
  ⟨1, "t", "", "general", "[]", "ready", "2024-01-01 00:00:00", "2024-01-01 00:00:00", [], 1⟩

/-- The search response for a category-only search by user 1 on `exDbA`. -/
def exSearchResp : SearchResp := ⟨[exSearchResult], ⟨1, 20, 1, 1⟩⟩

/-! ## Lemmas: the stable sort and the dedup helper -/

theorem insSorted_perm (keep : α → α → Bool) (x : α) (l : List α) :
    List.Perm (insSorted keep x l) (x :: l) := by
  induction l with
  | nil => simp [insSorted]
  | cons y ys ih =>
    simp only [insSorted]
    split
    · exact List.Perm.refl _
    · exact (ih.cons y).trans (List.Perm.swap x y ys)

theorem sortBy'_perm (keep : α → α → Bool) (l : List α) : List.Perm (sortBy' keep l) l := by
  induction l with
  | nil => simp [sortBy']
  | cons x xs ih =>
    simp only [sortBy']
    exact (insSorted_perm keep x _).trans (ih.cons x)

theorem mem_sortBy' (keep : α → α → Bool) (l : List α) (a : α) :
    a ∈ sortBy' keep l ↔ a ∈ l :=
  (sortBy'_perm keep l).mem_iff

theorem mem_dedupKeepFirstAux [DecidableEq α] (a : α) (l : List α) :
    ∀ seen : List α, a ∈ dedupKeepFirstAux seen l ↔ a ∈ l ∧ a ∉ seen := by
  induction l with
  | nil => intro seen; simp [dedupKeepFirstAux]
  | cons x xs ih =>
    intro seen
    simp only [dedupKeepFirstAux]
    by_cases hx : x ∈ seen
    · rw [if_pos hx, ih seen]
      simp only [List.mem_cons]
      constructor
      · rintro ⟨h1, h2⟩; exact ⟨Or.inr h1, h2⟩
      · rintro ⟨h1 | h1, h2⟩
        · exact absurd (h1 ▸ hx) h2
        · exact ⟨h1, h2⟩
    · rw [if_neg hx]
      simp only [List.mem_cons, ih (x :: seen), List.mem_cons]
      constructor
      · rintro (rfl | ⟨h1, h2⟩)
        · exact ⟨Or.inl rfl, hx⟩
        · exact ⟨Or.inr h1, fun hc => h2 (Or.inr hc)⟩
      · rintro ⟨rfl | h1, h2⟩
        · exact Or.inl rfl
        · by_cases hax : a = x
          · exact Or.inl hax
          · refine Or.inr ⟨h1, fun hc => ?_⟩
            rcases hc with hc | hc
            · exact hax hc
            · exact h2 hc

theorem mem_dedupKeepFirst [DecidableEq α] (a : α) (l : List α) :
    a ∈ dedupKeepFirst l ↔ a ∈ l := by
  unfold dedupKeepFirst
  rw [mem_dedupKeepFirstAux]
  simp

theorem nodup_dedupKeepFirstAux [DecidableEq α] (l : List α) :
    ∀ seen : List α, (dedupKeepFirstAux seen l).Nodup := by
  induction l with
  | nil => intro seen; simp [dedupKeepFirstAux]
  | cons x xs ih =>
    intro seen
    simp only [dedupKeepFirstAux]
    by_cases hx : x ∈ seen
    · rw [if_pos hx]; exact ih seen
    · rw [if_neg hx]
      refine List.nodup_cons.mpr ⟨?_, ih (x :: seen)⟩
      intro hmem
      rcases (mem_dedupKeepFirstAux x xs (x :: seen)).mp hmem with ⟨_, h2⟩
      exact h2 (List.mem_cons_self x seen)

theorem nodup_dedupKeepFirst [DecidableEq α] (l : List α) : (dedupKeepFirst l).Nodup :=
  nodup_dedupKeepFirstAux l []

theorem dedupKeepFirstAux_append [DecidableEq α] (l : List α) (w : α) :
    ∀ seen : List α, dedupKeepFirstAux seen (l ++ [w]) =
      dedupKeepFirstAux seen l ++ (if w ∈ seen ∨ w ∈ l then [] else [w]) := by
  induction l with
  | nil =>
    intro seen
    simp only [List.nil_append, dedupKeepFirstAux]
    by_cases hw : w ∈ seen
    · simp [dedupKeepFirstAux, hw]
    · simp [dedupKeepFirstAux, hw]
  | cons x xs ih =>
    intro seen
    by_cases hx : x ∈ seen
    · have hstep : dedupKeepFirstAux seen ((x :: xs) ++ [w]) =
          dedupKeepFirstAux seen (xs ++ [w]) := by
        simp [dedupKeepFirstAux, hx]
      have hstep2 : dedupKeepFirstAux seen (x :: xs) = dedupKeepFirstAux seen xs := by
        simp [dedupKeepFirstAux, hx]
      have hiff : (w ∈ seen ∨ w ∈ xs) ↔ (w ∈ seen ∨ w ∈ x :: xs) := by
        constructor
        · rintro (h1 | h1)
          · exact Or.inl h1
          · exact Or.inr (List.mem_cons_of_mem x h1)
        · rintro (h1 | h1)
          · exact Or.inl h1
          · rcases List.mem_cons.mp h1 with rfl | h1
            · exact Or.inl hx
            · exact Or.inr h1
      rw [hstep, ih seen, hstep2, if_congr hiff rfl rfl]
    · have hstep : dedupKeepFirstAux seen ((x :: xs) ++ [w]) =
          x :: dedupKeepFirstAux (x :: seen) (xs ++ [w]) := by
        simp [dedupKeepFirstAux, hx]
      have hstep2 : dedupKeepFirstAux seen (x :: xs) =
          x :: dedupKeepFirstAux (x :: seen) xs := by
        simp [dedupKeepFirstAux, hx]
      have hiff : (w ∈ x :: seen ∨ w ∈ xs) ↔ (w ∈ seen ∨ w ∈ x :: xs) := by
        simp only [List.mem_cons]
        tauto
      rw [hstep, ih (x :: seen), hstep2, List.cons_append, if_congr hiff rfl rfl]

theorem dedupKeepFirst_append_mem [DecidableEq α] (l : List α) (w : α) (h : w ∈ l) :
    dedupKeepFirst (l ++ [w]) = dedupKeepFirst l := by
  unfold dedupKeepFirst
  rw [dedupKeepFirstAux_append]
  simp [h]

theorem dedupKeepFirst_append_not_mem [DecidableEq α] (l : List α) (w : α) (h : w ∉ l) :
    dedupKeepFirst (l ++ [w]) = dedupKeepFirst l ++ [w] := by
  unfold dedupKeepFirst
  rw [dedupKeepFirstAux_append]
  simp [h]

/-! ## Lemmas: the `wordFrequency` object as counts over deduplicated tokens -/

theorem str_append_ones (s : String) (n : Nat) :
    (s ++ String.mk (List.replicate n '1')) ++ "1" =
      s ++ String.mk (List.replicate (n + 1) '1') := by
  apply String.ext
  simp [List.replicate_succ']

theorem bump_freqOf (p : List String) (w : String) :
    bump ((dedupKeepFirst p).map (fun x => (x, countVal x p))) w =
      (dedupKeepFirst (p ++ [w])).map (fun x => (x, countVal x (p ++ [w]))) := by
  by_cases hw : w ∈ p
  · rw [dedupKeepFirst_append_mem p w hw]
    have hany : ((dedupKeepFirst p).map (fun x => (x, countVal x p))).any
        (fun e => e.1 = w) = true := by
      simp only [List.any_eq_true]
      exact ⟨(w, countVal w p), List.mem_map_of_mem _ ((mem_dedupKeepFirst w p).mpr hw),
        by simp⟩
    simp only [bump, hany, if_true, List.map_map]
    apply List.map_congr_left
    intro x _
    by_cases hx : x = w
    · subst hx
      have hcnt : (p ++ [x]).count x = p.count x + 1 := by
        simp [List.count_append]
      have hkey : jsPlusOne (countVal x p) = countVal x (p ++ [x]) := by
        unfold countVal
        by_cases hm : x ∈ objectPrototypeMembers
        · simp only [if_pos hm, jsPlusOne, hcnt]
          rw [str_append_ones]
        · simp [if_neg hm, jsPlusOne, hcnt]
      simp [Function.comp, hkey]
    · have hcnt : (p ++ [w]).count x = p.count x := by
        simp [List.count_append, hx]
      simp [Function.comp, hx, countVal, hcnt]
  · rw [dedupKeepFirst_append_not_mem p w hw]
    have hany : ((dedupKeepFirst p).map (fun x => (x, countVal x p))).any
        (fun e => e.1 = w) = false := by
      refine List.any_eq_false.mpr ?_
      intro e he
      rcases List.mem_map.mp he with ⟨x, hx, rfl⟩
      have hxp : x ∈ p := (mem_dedupKeepFirst x p).mp hx
      simp only [decide_eq_true_eq]
      intro hcontra
      exact hw (hcontra ▸ hxp)
    simp only [bump, hany, List.map_append]
    rw [if_neg (by simp [hany])]
    congr 1
    · apply List.map_congr_left
      intro x hx
      have hxp : x ∈ p := (mem_dedupKeepFirst x p).mp hx
      have hxw : x ≠ w := fun hh => hw (hh ▸ hxp)
      have hcnt : (p ++ [w]).count x = p.count x := by
        simp [List.count_append, hxw]
      simp [countVal, hcnt]
    · have h0 : p.count w = 0 := List.count_eq_zero_of_not_mem hw
      have hone : String.mk (List.replicate 1 '1') = "1" := by rfl
      simp [bumpInit, countVal, h0, hone]

theorem foldl_bump_spec (rest : List String) :
    ∀ p : List String,
      List.foldl bump ((dedupKeepFirst p).map (fun x => (x, countVal x p))) rest =
        (dedupKeepFirst (p ++ rest)).map (fun x => (x, countVal x (p ++ rest))) := by
  induction rest with
  | nil => intro p; simp
  | cons w rest ih =>
    intro p
    rw [List.foldl_cons, bump_freqOf, ih (p ++ [w])]
    simp

theorem buildFreq_spec (l : List String) :
    buildFreq l = (dedupKeepFirst l).map (fun x => (x, countVal x l)) := by
  have h := foldl_bump_spec l []
  simpa [buildFreq, dedupKeepFirst] using h

theorem buildFreq_keys (l : List String) :
    (buildFreq l).map (fun e => e.1) = dedupKeepFirst l := by
  rw [buildFreq_spec, List.map_map]
  simp [Function.comp_def]

/-! ## Lemmas: stability and sortedness of the insertion sort -/

theorem insSorted_map (keep : β → β → Bool) (keep' : α → α → Bool) (f : α → β)
    (hc : ∀ a b, keep (f a) (f b) = keep' a b) (x : α) (l : List α) :
    insSorted keep (f x) (l.map f) = (insSorted keep' x l).map f := by
  induction l with
  | nil => simp [insSorted]
  | cons y ys ih =>
    simp only [List.map_cons, insSorted, hc]
    split <;> simp [*]

theorem sortBy'_map (keep : β → β → Bool) (keep' : α → α → Bool) (f : α → β)
    (hc : ∀ a b, keep (f a) (f b) = keep' a b) (l : List α) :
    sortBy' keep (l.map f) = (sortBy' keep' l).map f := by
  induction l with
  | nil => rfl
  | cons x xs ih => simp only [List.map_cons, sortBy', ih, insSorted_map keep keep' f hc]

theorem insSorted_pairwise (keep : α → α → Bool)
    (htot : ∀ a b, keep a b = true ∨ keep b a = true)
    (htrans : ∀ a b c, keep a b = true → keep b c = true → keep a c = true)
    (x : α) (l : List α) (h : l.Pairwise (fun a b => keep a b = true)) :
    (insSorted keep x l).Pairwise (fun a b => keep a b = true) := by
  induction l with
  | nil => simp [insSorted]
  | cons y ys ih =>
    rcases List.pairwise_cons.mp h with ⟨hy, hys⟩
    simp only [insSorted]
    split
    · next hxy =>
      refine List.pairwise_cons.mpr ⟨?_, h⟩
      intro b hb
      rcases List.mem_cons.mp hb with rfl | hb'
      · exact hxy
      · exact htrans x y b hxy (hy b hb')
    · next hxy =>
      refine List.pairwise_cons.mpr ⟨?_, ih hys⟩
      intro b hb
      rcases List.mem_cons.mp ((insSorted_perm keep x ys).mem_iff.mp hb) with rfl | hb'
      · rcases htot b y with h1 | h2
        · exact absurd h1 hxy
        · exact h2
      · exact hy b hb'

theorem sortBy'_pairwise (keep : α → α → Bool)
    (htot : ∀ a b, keep a b = true ∨ keep b a = true)
    (htrans : ∀ a b c, keep a b = true → keep b c = true → keep a c = true)
    (l : List α) : (sortBy' keep l).Pairwise (fun a b => keep a b = true) := by
  induction l with
  | nil => simp [sortBy']
  | cons x xs ih =>
    simp only [sortBy']
    exact insSorted_pairwise keep htot htrans x _ ih

/-! ## Lemmas: the search scope under positional binding -/

theorem intAffinity_likePattern (q : String) : intAffinity (likePattern q) = none := by
  have hdata : (likePattern q).data = '%' :: (q.data ++ ['%']) := by
    simp [likePattern]
  unfold intAffinity
  rw [hdata]
  have h1 : isWsCh '%' = false := by decide
  rw [List.dropWhile_cons]
  rw [h1]
  simp [isDigitCh]

theorem binding_none_docClause (actorId : Int) (req : SearchReq) (h : docClause req = true) :
    binding actorId req = none := by
  have hlen : (slotsOf req).length ≠ (paramsOf actorId req).length := by
    simp only [slotsOf, paramsOf, h, if_true, List.length_append]
    split_ifs <;> simp
  simp [binding, hlen]

theorem slotLookup_scope_noCase (actorId : Int) (req : SearchReq)
    (bound : List (Slot × SqlValue))
    (hdoc : docClause req = false) (hcase : caseClause req = false)
    (hb : binding actorId req = some bound) :
    slotLookup bound .sscope = some (.int actorId) := by
  unfold binding at hb
  split at hb
  · injection hb with hb
    subst hb
    simp only [slotsOf, paramsOf, hdoc, hcase, if_false, List.nil_append,
      List.singleton_append, List.cons_append]
    simp [List.zip_cons_cons, slotLookup]
  · cases hb

theorem slotLookup_scope_case (actorId : Int) (req : SearchReq)
    (bound : List (Slot × SqlValue))
    (hdoc : docClause req = false) (hcase : caseClause req = true)
    (hb : binding actorId req = some bound) :
    slotLookup bound .sscope = some (.text (likePattern (req.q.getD ""))) := by
  unfold binding at hb
  split at hb
  · injection hb with hb
    subst hb
    simp only [slotsOf, paramsOf, hdoc, hcase, if_false, if_true, List.nil_append,
      List.singleton_append, List.cons_append]
    simp [List.zip_cons_cons, slotLookup]
  · cases hb

theorem mem_selectedDocs (db : Db) (bound : List (Slot × SqlValue)) (lim off : Nat)
    (d : DocRow) (hd : d ∈ selectedDocs db bound lim off) :
    d ∈ db.docs ∧ wherePass bound d = true := by
  unfold selectedDocs at hd
  have h1 := List.mem_of_mem_take hd
  have h2 := List.mem_of_mem_drop h1
  have h3 := (mem_sortBy' _ _ d).mp h2
  have h4 := List.mem_filter.mp h3
  have h5 := List.mem_filter.mp h4.1
  exact ⟨h5.1, h5.2⟩

theorem wherePass_userId (bound : List (Slot × SqlValue)) (d : DocRow) (i : Int)
    (hv : slotLookup bound .sscope = some (.int i)) (h : wherePass bound d = true) :
    d.userId = i := by
  unfold wherePass at h
  rw [hv] at h
  simp only [Bool.and_eq_true] at h
  have h1 := h.1.1.1
  simpa [sqlEqInt] using h1

theorem wherePass_false_of_text (bound : List (Slot × SqlValue)) (d : DocRow) (q : String)
    (hv : slotLookup bound .sscope = some (.text (likePattern q))) :
    wherePass bound d = false := by
  unfold wherePass
  rw [hv]
  simp [sqlEqInt, intAffinity_likePattern]

/-! ## Lemmas: the keyword pipeline -/

theorem keywordsOf_eq_spec (text : String)
    (hclean : ∀ w ∈ validTokens text, w ∉ objectPrototypeMembers) :
    keywordsOf text = keywordsSpec text := by
  unfold keywordsOf keywordsSpec
  have hb : buildFreq (validTokens text) =
      ((dedupKeepFirst (validTokens text)).map
        (fun x => (x, (validTokens text).count x))).map natPairVal := by
    rw [buildFreq_spec, List.map_map]
    apply List.map_congr_left
    intro x hx
    have hxm : x ∈ validTokens text := (mem_dedupKeepFirst x _).mp hx
    have hmem := hclean x hxm
    simp [Function.comp, natPairVal, countVal, hmem]
  rw [hb,
    sortBy'_map freqKeep freqKeepNat natPairVal (fun a b => rfl),
    sortBy'_map freqKeepNat
      (fun a b => decide ((validTokens text).count b ≤ (validTokens text).count a))
      (fun x => (x, (validTokens text).count x)) (fun a b => rfl),
    ← List.map_take, ← List.map_take, List.map_map]
  simp [Function.comp_def, natPairVal]

theorem keywordsOf_nodup (text : String) : (keywordsOf text).Nodup := by
  unfold keywordsOf
  have hsub : List.Sublist
      ((List.take 10 (sortBy' freqKeep (buildFreq (validTokens text)))).map
        (fun e : String × JsVal => e.1))
      ((sortBy' freqKeep (buildFreq (validTokens text))).map
        (fun e : String × JsVal => e.1)) :=
    (List.take_sublist _ _).map _
  apply List.Nodup.sublist hsub
  have hperm := (sortBy'_perm freqKeep (buildFreq (validTokens text))).map
    (fun e : String × JsVal => e.1)
  rw [hperm.nodup_iff, buildFreq_keys]
  exact nodup_dedupKeepFirst _

theorem keywordsOf_len (text : String) : (keywordsOf text).length ≤ 10 := by
  unfold keywordsOf
  simp [List.length_take]

theorem keywordsOf_sorted (text : String)
    (hclean : ∀ w ∈ validTokens text, w ∉ objectPrototypeMembers) :
    (keywordsOf text).Pairwise
      (fun a b => (validTokens text).count b ≤ (validTokens text).count a) := by
  rw [keywordsOf_eq_spec text hclean]
  unfold keywordsSpec
  have hp := sortBy'_pairwise
    (fun a b => decide ((validTokens text).count b ≤ (validTokens text).count a))
    (fun a b => by
      rcases Nat.le_total ((validTokens text).count b) ((validTokens text).count a)
        with h | h <;> simp [h])
    (fun a b c h1 h2 => by
      simp only [decide_eq_true_eq] at h1 h2 ⊢
      exact le_trans h2 h1)
    (dedupKeepFirst (validTokens text))
  have hp2 := hp.sublist (List.take_sublist 10 _)
  exact hp2.imp (fun h => by simpa using h)

theorem extractMetadata_keywords (text : String) :
    (extractMetadata text).keywords = keywordsOf text := by
  by_cases h : text = ""
  · subst h; rfl
  · simp [extractMetadata, h]

/-! ## Lemmas: the ingestion loop -/

theorem processFiles_map_pageOrder (fsExists : String → Bool)
    (engine : String → Except String (String × Int)) (docId : Int) (now : String)
    (files : List FileInfo) :
    ∀ pid idx, (processFiles fsExists engine docId now pid idx files).map
      (fun p => p.pageOrder) = List.range' (idx + 1) files.length := by
  induction files with
  | nil => intro pid idx; rfl
  | cons f rest ih =>
    intro pid idx
    simp only [processFiles, List.map_cons, List.length_cons, List.range'_succ, pageFor]
    exact congrArg (List.cons (idx + 1)) (ih (pid + 1) (idx + 1))

theorem processFiles_length (fsExists : String → Bool)
    (engine : String → Except String (String × Int)) (docId : Int) (now : String)
    (files : List FileInfo) :
    ∀ pid idx, (processFiles fsExists engine docId now pid idx files).length =
      files.length := by
  induction files with
  | nil => intro pid idx; rfl
  | cons f rest ih =>
    intro pid idx
    simp only [processFiles, List.length_cons, ih]

theorem processFiles_get? (fsExists : String → Bool)
    (engine : String → Except String (String × Int)) (docId : Int) (now : String)
    (files : List FileInfo) :
    ∀ i pid idx, (processFiles fsExists engine docId now pid idx files).get? i =
      (files.get? i).map (fun f => pageFor fsExists engine docId (pid + (i : Int)) now
        (idx + i) f) := by
  induction files with
  | nil => intro i pid idx; simp [processFiles]
  | cons f rest ih =>
    intro i pid idx
    cases i with
    | zero => simp [processFiles]
    | succ j =>
      simp only [processFiles, List.get?_cons_succ, ih j (pid + 1) (idx + 1)]
      congr 1
      funext g
      congr 1
      · omega
      · omega

/-! ## Claim theorems -/

set_option maxRecDepth 10000

/-- C1: for every actor whose role is neither admin nor manager and every
combination of search filters, every document the search operation returns
is owned by the actor — each result's id is the id of a stored document
whose `user_id` equals the actor's id. In particular a text query `q` with
type `all` or `document` cannot surface foreign documents: the scope-clause
replacement leaves the prepared statement one parameter short, better-sqlite3
refuses to run it and the route answers 500, returning no documents at all;
with type `content` the misaligned binding compares `user_id` against the
LIKE pattern, which matches no row. -/
theorem search_scope_owner_only (db : Db) (actor : Actor) (req : SearchReq)
    (resp : SearchResp)
    (_hadmin : actor.role ≠ "admin") (_hmanager : actor.role ≠ "manager")
    (h : searchDocuments db actor req = .ok resp) :
    ∀ r ∈ resp.results,
      r.id ∈ (db.docs.filter (fun x => x.userId == actor.id)).map (fun x => x.id) := by
  intro r hr
  unfold searchDocuments at h
  split at h
  · simp at h
  · split at h
    · simp at h
    · split at h
      · simp at h
      · next bound hb =>
        injection h with h
        subst h
        rcases List.mem_map.mp hr with ⟨d, hd, rfl⟩
        have hdd := mem_selectedDocs db bound _ _ d hd
        by_cases hdoc : docClause req
        · rw [binding_none_docClause actor.id req hdoc] at hb; cases hb
        · by_cases hcase : caseClause req
          · have hsc := slotLookup_scope_case actor.id req bound
              (by simpa using hdoc) hcase hb
            have hfalse := wherePass_false_of_text bound d (req.q.getD "") hsc
            rw [hdd.2] at hfalse
            cases hfalse
          · have hsc := slotLookup_scope_noCase actor.id req bound
              (by simpa using hdoc) (by simpa using hcase) hb
            have huid : d.userId = actor.id := wherePass_userId bound d actor.id hsc hdd.2
            refine List.mem_map.mpr ⟨d, List.mem_filter.mpr ⟨hdd.1, by simp [huid]⟩, ?_⟩
            simp [formatDoc]

/-- Witness for C1: a user-role category search on a concrete database
returns exactly the actor's own document. -/
theorem search_scope_owner_only_witness :
    exSearchResult.id ∈
      (exDbA.docs.filter (fun x => x.userId == (1 : Int))).map (fun x => x.id) :=
  search_scope_owner_only exDbA ⟨1, "user"⟩
    { noSearchReq with category := some "general" } exSearchResp
    (by decide) (by decide) (by decide) exSearchResult (by decide)

/-- C2 counterexample: a manager deleting a document owned by another user is
NOT rejected — `checkDocumentOwnership` passes managers unconditionally and
the route demands only `documents:delete_own`, which managers hold, so the
document and its pages are removed and the route answers success. -/
theorem manager_delete_foreign_succeeds :
    deleteDocument exDbB ⟨2, "manager"⟩ 1 = .ok ⟨[], [], 2, 2⟩ ∧
    findDoc exDbB 1 = some exDocB ∧ exDocB.userId ≠ (2 : Int) := by decide

/-- C2 amended: only for actors with role `user` does the delete route reject
a foreign document (403, state unchanged); a manager's delete always passes
both middlewares and removes the document together with its pages. -/
theorem delete_ownership_amended :
    (∀ (db : Db) (actor : Actor) (docId : Int) (d : DocRow),
      actor.role = "user" → findDoc db docId = some d → d.userId ≠ actor.id →
      deleteDocument db actor docId = .error ⟨403, "Accès interdit"⟩) ∧
    (∀ (db : Db) (actor : Actor) (docId : Int), actor.role = "manager" →
      deleteDocument db actor docId =
        .ok { db with docs := db.docs.filter (fun x => !(x.id == docId)),
                      pages := db.pages.filter (fun p => !(p.documentId == docId)) }) := by
  constructor
  · intro db actor docId d hrole hfind hne
    unfold deleteDocument checkDocumentOwnership
    rw [hrole, hfind]
    simp [hne]
  · intro db actor docId hrole
    have hacc : permissionsAccess "documents:delete_own" =
        .roles ["admin", "manager", "user"] := by rfl
    have hmem : (("manager" : String) ∈ (["admin", "manager", "user"] : List String)) := by
      decide
    unfold deleteDocument checkDocumentOwnership checkPermission hasPermission
    simp [hrole, hacc, hmem]

/-- Witness for C2 amended: a user-role actor is refused on a foreign
document; a manager's delete of the same kind of document goes through. -/
theorem delete_ownership_amended_witness :
    deleteDocument exDbA ⟨2, "user"⟩ 1 = .error ⟨403, "Accès interdit"⟩ ∧
    deleteDocument exDbB ⟨2, "manager"⟩ 1 =
      .ok { exDbB with docs := exDbB.docs.filter (fun x => !(x.id == (1 : Int))),
                       pages := exDbB.pages.filter (fun p => !(p.documentId == (1 : Int))) } :=
  ⟨delete_ownership_amended.1 exDbA ⟨2, "user"⟩ 1 exDocA (by rfl) (by rfl) (by decide),
   delete_ownership_amended.2 exDbB ⟨2, "manager"⟩ 1 (by rfl)⟩

/-- C3 counterexample: the document-update route writes any caller-supplied
status, so a `ready` document moves back to `processing` — the status machine
has no one-way transition. -/
theorem status_ready_to_processing_via_put :
    exDocA.status = "ready" ∧
    putDocument exDbA ⟨1, "user"⟩ 1 .null .null .null none (.str "processing") "t" =
      .ok exPutDb ∧
    exPutDb.docs.map (fun x => x.status) = ["processing"] := by decide

/-- C3 amended: ingestion inserts the document with status `processing` and
flips exactly that document to `ready` once, after the whole batch; the
page-update route never succeeds, hence never changes any status; but the
document-update route sets the status of the addressed document to whatever
string the caller supplies (keeping it only when the field is null), so
arbitrary transitions — including ready back to processing — are reachable. -/
theorem status_machine_amended :
    (∀ (db : Db) (actor : Actor) (t d c : Option String) (today now : String),
      ((ingestStart db actor t d c today now).1.docs).map (fun x => x.status) =
        db.docs.map (fun x => x.status) ++ ["processing"]) ∧
    (∀ (fsExists : String → Bool) (engine : String → Except String (String × Int))
       (db : Db) (actor : Actor) (files : List FileInfo)
       (t d c : Option String) (today now : String) (db' : Db) (resp : IngestResp),
      (∀ x ∈ db.docs, x.id ≠ db.nextDocId) →
      postDocuments fsExists engine db actor files t d c today now = .ok (db', resp) →
      db'.docs.map (fun x => x.status) = db.docs.map (fun x => x.status) ++ ["ready"]) ∧
    (∀ (db : Db) (actor : Actor) (docId : Int) (t dsc cat : JStr)
       (tags : Option (List String)) (st : JStr) (now : String) (db' : Db),
      putDocument db actor docId t dsc cat tags st now = .ok db' →
      db'.docs.map (fun x => x.status) =
        db.docs.map (fun x => if x.id == docId then jstrCoalesce st x.status else x.status)) ∧
    (∀ (db : Db) (actor : Actor) (docId pageId : Int) (o : Option String)
       (e : Option EntityBag) (db' : Db),
      putDocumentPage db actor docId pageId o e ≠ .ok db') := by
  refine ⟨?_, ?_, ?_, ?_⟩
  · intro db actor t d c today now
    simp [ingestStart]
  · intro fsExists engine db actor files t d c today now db' resp hwf h
    unfold postDocuments at h
    split at h
    · cases h
    · split at h
      · cases h
      · injection h with h
        injection h with h1 h2
        rw [← h1]
        simp only [ingestFinish, ingestStart, List.map_append, List.map_map]
        congr 1
        · apply List.map_congr_left
          intro x hx
          have hne := hwf x hx
          simp [Function.comp, hne]
        · simp
  · intro db actor docId t dsc cat tags st now db' h
    unfold putDocument at h
    split at h
    · cases h
    · split at h
      · cases h
      · split at h
        · cases h
        · injection h with h
          rw [← h]
          simp only [List.map_map]
          apply List.map_congr_left
          intro x _
          by_cases hid : x.id == docId
          · simp [Function.comp, hid]
          · simp [Function.comp, hid]
  · intro db actor docId pageId o e db'
    unfold putDocumentPage
    split
    · exact fun hc => by cases hc
    · split
      · exact fun hc => by cases hc
      · have hp : pageUpdatePrepareOk = false := by decide
        rw [hp]
        simp

/-- Witness for C3 amended, at a concrete database: the inserted document is
`processing`, a finished one-file ingest ends `ready`, and a PUT with
`status: "processing"` moves the addressed document there. -/
theorem status_machine_amended_witness :
    (((ingestStart exDbA ⟨1, "user"⟩ none none none "d" "t").1.docs).map
        (fun x => x.status) = exDbA.docs.map (fun x => x.status) ++ ["processing"]) ∧
    (exIngestDb1.docs.map (fun x => x.status) =
      exDbA.docs.map (fun x => x.status) ++ ["ready"]) ∧
    (exPutDb.docs.map (fun x => x.status) =
      exDbA.docs.map (fun x =>
        if x.id == (1 : Int) then jstrCoalesce (.str "processing") x.status else x.status)) :=
  ⟨status_machine_amended.1 exDbA ⟨1, "user"⟩ none none none "d" "t",
   status_machine_amended.2.1 fsNone engFail exDbA ⟨1, "user"⟩ [exFilePdf] none none none
     "d" "t" exIngestDb1 exIngestResp1 (by decide) (by rfl),
   status_machine_amended.2.2.1 exDbA ⟨1, "user"⟩ 1 .null .null .null none
     (.str "processing") "t" exPutDb (by rfl)⟩

/-- C4: for every ingested batch, the pages persisted for the new document
carry `page_order` exactly `1..N` in upload order — `List.range' 1 N` — and
one page per file, independent of classification and of the OCR oracle. -/
theorem ingestion_page_order_contiguous (fsExists : String → Bool)
    (engine : String → Except String (String × Int))
    (db : Db) (actor : Actor) (files : List FileInfo)
    (title description category : Option String) (today now : String)
    (db' : Db) (resp : IngestResp)
    (h : postDocuments fsExists engine db actor files title description category today now =
      .ok (db', resp)) :
    (db'.pages.drop db.pages.length).map (fun p => p.pageOrder) =
      List.range' 1 files.length ∧
    db'.pages.length = db.pages.length + files.length := by
  unfold postDocuments at h
  split at h
  · cases h
  · split at h
    · cases h
    · injection h with h
      injection h with h1 h2
      constructor
      · rw [← h1]
        simp only [ingestFinish, ingestStart]
        rw [List.drop_left, processFiles_map_pageOrder]
      · rw [← h1]
        simp only [ingestFinish, ingestStart]
        simp [List.length_append, processFiles_length]

/-- Witness for C4: a two-file batch (one image whose OCR fails, one PDF)
yields pages ordered `[1, 2]`. -/
theorem ingestion_page_order_contiguous_witness :
    (exIngestDb2.pages.drop exDbA.pages.length).map (fun p => p.pageOrder) =
      List.range' 1 [exFileImg, exFilePdf].length ∧
    exIngestDb2.pages.length = exDbA.pages.length + [exFileImg, exFilePdf].length :=
  ingestion_page_order_contiguous fsNone engFail exDbA ⟨1, "user"⟩ [exFileImg, exFilePdf]
    none none none "d" "t" exIngestDb2 exIngestResp2 (by rfl)

/-- C5: when the OCR attempt for an image file of a batch fails (a missing
file or an engine error), that file's page row is still persisted with empty
`ocr_text` and no entity data (only the flags, `ocrAttempted` true and
`ocrSuccess` false), every other file of the batch is still processed, the
document still ends `ready`, and the route still answers success. -/
theorem ocr_failure_never_aborts_batch (fsExists : String → Bool)
    (engine : String → Except String (String × Int))
    (db : Db) (actor : Actor) (files : List FileInfo)
    (title description category : Option String) (today now : String)
    (i : Nat) (f : FileInfo) (db' : Db) (resp : IngestResp)
    (hfile : files.get? i = some f)
    (hpdf : isPdfFile f = false) (hword : isWordFile f = false)
    (hfail : (recognizeText fsExists engine f.path).success = false)
    (h : postDocuments fsExists engine db actor files title description category today now =
      .ok (db', resp)) :
    (db'.pages.get? (db.pages.length + i)).map
        (fun p => (p.ocrText, p.extractedData, p.pageOrder)) =
      some (some "", ⟨none, false, false, true, false⟩, i + 1) ∧
    db'.pages.length = db.pages.length + files.length ∧
    (db'.docs.getLast?).map (fun x => x.status) = some "ready" ∧
    resp.pagesProcessed = files.length := by
  unfold postDocuments at h
  split at h
  · cases h
  · split at h
    · cases h
    · injection h with h
      injection h with h1 h2
      have hproc : processImage fsExists engine f.path = ⟨false, none, none, none⟩ := by
        simp [processImage, hfail]
      refine ⟨?_, ?_, ?_, ?_⟩
      · rw [← h1]
        simp only [ingestFinish, ingestStart]
        rw [List.get?_append_right (by omega)]
        simp only [Nat.add_sub_cancel_left]
        rw [processFiles_get?, hfile]
        simp [pageFor, ocrResultFor, hpdf, hword, hproc]
      · rw [← h1]
        simp only [ingestFinish, ingestStart]
        simp [List.length_append, processFiles_length]
      · rw [← h1]
        simp only [ingestFinish, ingestStart, List.map_append]
        simp
      · rw [← h2]

/-- Witness for C5: in the two-file batch the image's OCR fails (the path
does not exist on `fsNone`), yet its page is stored empty, both pages exist,
the document is `ready` and the response reports both files processed. -/
theorem ocr_failure_never_aborts_batch_witness :
    (exIngestDb2.pages.get? (exDbA.pages.length + 0)).map
        (fun p => (p.ocrText, p.extractedData, p.pageOrder)) =
      some (some "", ⟨none, false, false, true, false⟩, 0 + 1) ∧
    exIngestDb2.pages.length = exDbA.pages.length + [exFileImg, exFilePdf].length ∧
    (exIngestDb2.docs.getLast?).map (fun x => x.status) = some "ready" ∧
    exIngestResp2.pagesProcessed = [exFileImg, exFilePdf].length :=
  ocr_failure_never_aborts_batch fsNone engFail exDbA ⟨1, "user"⟩ [exFileImg, exFilePdf]
    none none none "d" "t" 0 exFileImg exIngestDb2 exIngestResp2
    (by rfl) (by decide) (by decide) (by rfl) (by rfl)

/-- C6 counterexample: on `"15.03.2024 tax 15.03.2024"` the dates list keeps
both occurrences (nothing deduplicates dates), and the amounts list holds the
same trimmed span twice — once per amount pattern (the trailing digit run
matches both patterns through the `$` alternative) — so neither list is
duplicate-free. -/
theorem extractMetadata_dates_duplicated :
    (extractMetadata "15.03.2024 tax 15.03.2024").dates =
      ["15.03.2024", "15.03.2024"] ∧
    ¬ (extractMetadata "15.03.2024 tax 15.03.2024").dates.Nodup ∧
    (extractMetadata "15.03.2024 tax 15.03.2024").amounts =
      ["15.03.2024", "15.03.2024"] ∧
    ¬ (extractMetadata "15.03.2024 tax 15.03.2024").amounts.Nodup := by decide

/-- C6 amended: only the emails, phones and keywords lists of the extractor
are duplicate-free (emails and phones through a `Set`, keywords as the keys
of the frequency object); the dates list keeps every match occurrence of
every pattern, and amounts are deduplicated only within each of the two
patterns, so both may repeat. -/
theorem extractMetadata_dedup_amended (text : String) :
    (extractMetadata text).emails.Nodup ∧ (extractMetadata text).phones.Nodup ∧
    (extractMetadata text).keywords.Nodup := by
  by_cases h : text = ""
  · subst h
    refine ⟨?_, ?_, ?_⟩ <;> simp [extractMetadata, emptyBag]
  · refine ⟨?_, ?_, ?_⟩
    · simp only [extractMetadata, if_neg h]
      exact nodup_dedupKeepFirst _
    · simp only [extractMetadata, if_neg h]
      exact nodup_dedupKeepFirst _
    · rw [extractMetadata_keywords]
      exact keywordsOf_nodup text

/-- C7 (code bug): with `hasAmount=true` on a database whose only document is
owned by the actor but whose page text has no currency token, the result page
is empty (the HAVING filter removed the document) while the count query —
which repeats neither the HAVING filters nor the type routing — still counts
it: the pagination object says `total = 1, pages = 1` although no document
satisfies the result-page predicate. -/
theorem search_total_mismatch_hasAmount :
    searchDocuments exDbA ⟨1, "user"⟩ { noSearchReq with hasAmount := some "true" } =
      .ok ⟨[], ⟨1, 20, 1, 1⟩⟩ ∧
    countTotal exDbA 1 { noSearchReq with hasAmount := some "true" } = 1 := by decide

/-- C8 counterexample: on `"apple constructor constructor constructor"` the
token `constructor` occurs three times and `apple` once, yet the extractor
returns `["apple", "constructor"]` — not frequency-descending. The first
read of `wordFrequency["constructor"]` finds the inherited `Object`
constructor through the prototype chain; `|| 0` keeps it (truthy) and `+ 1`
turns the count into a growing non-numeric string, so the sort comparator
`b[1] - a[1]` is NaN, which `SortCompare` treats as +0, and the stable sort
leaves the pair in insertion order. -/
theorem keywords_constructor_not_ranked :
    validTokens "apple constructor constructor constructor" =
      ["apple", "constructor", "constructor", "constructor"] ∧
    (extractMetadata "apple constructor constructor constructor").keywords =
      ["apple", "constructor"] ∧
    (validTokens "apple constructor constructor constructor").count "apple" <
      (validTokens "apple constructor constructor constructor").count "constructor" := by
  decide

/-- C8 amended: for every text none of whose valid tokens is an inherited
`Object.prototype` member name (only `constructor` is reachable, the sole
such name made of lowercase letters), the keywords are exactly the spec's
ranking — distinct valid tokens in first-occurrence order, stably sorted by
frequency descending, truncated to 10 — pairwise ordered by descending
frequency; and for every text whatsoever the list has at most 10 entries.
When `constructor` occurs, its count is contaminated by the inherited
`Object` constructor and the NaN comparisons keep it at insertion order
instead of its frequency rank. -/
theorem keywords_ranking_refines_spec_amended (text : String)
    (hclean : ∀ w ∈ validTokens text, w ∉ objectPrototypeMembers) :
    (extractMetadata text).keywords = keywordsSpec text ∧
    (extractMetadata text).keywords.length ≤ 10 ∧
    (extractMetadata text).keywords.Pairwise
      (fun a b => (validTokens text).count b ≤ (validTokens text).count a) := by
  refine ⟨?_, ?_, ?_⟩ <;> rw [extractMetadata_keywords]
  · exact keywordsOf_eq_spec text hclean
  · exact keywordsOf_len text
  · exact keywordsOf_sorted text hclean

/-- Witness for C8 amended at a concrete constructor-free text. -/
theorem keywords_ranking_amended_witness :
    (extractMetadata "aaaa bbbb aaaa").keywords = keywordsSpec "aaaa bbbb aaaa" ∧
    (extractMetadata "aaaa bbbb aaaa").keywords.length ≤ 10 ∧
    (extractMetadata "aaaa bbbb aaaa").keywords.Pairwise
      (fun a b => (validTokens "aaaa bbbb aaaa").count b ≤
        (validTokens "aaaa bbbb aaaa").count a) :=
  keywords_ranking_refines_spec_amended "aaaa bbbb aaaa" (by decide)

/-- C9 (code bug): every page-update request that passes the ownership and
permission middlewares still fails with a 500 — the UPDATE statement SETs
`updated_at`, which is not a column of `document_pages`, so `db.prepare`
throws; no page is ever modified. -/
theorem page_update_always_fails (db : Db) (actor : Actor) (docId pageId : Int)
    (ocrText : Option String) (extractedData : Option EntityBag)
    (how : checkDocumentOwnership db actor docId = .ok ())
    (hperm : checkPermission "documents:edit_own" (some actor) = .ok ()) :
    putDocumentPage db actor docId pageId ocrText extractedData =
      .error ⟨500, "Erreur serveur"⟩ := by
  unfold putDocumentPage
  rw [how, hperm]
  have hp : pageUpdatePrepareOk = false := by decide
  simp [hp]

/-- Witness for C9: the owner of document 1 updates their own page and still
receives the 500. -/
theorem page_update_always_fails_witness :
    putDocumentPage exDbA ⟨1, "user"⟩ 1 1 (some "fixed") none =
      .error ⟨500, "Erreur serveur"⟩ :=
  page_update_always_fails exDbA ⟨1, "user"⟩ 1 1 (some "fixed") none (by decide) (by decide)

/-- C10 counterexample: `toString` is not a key of the matrix, yet with a
present user `hasPermission` does not return false — the property read finds
the inherited `Object.prototype.toString` function, the `!allowedRoles`
guard passes (a function is truthy), and `allowedRoles.includes(user.role)`
throws a TypeError. -/
theorem hasPermission_toString_throws :
    hasPermission (some ⟨1, "admin"⟩) "toString" =
      .error "TypeError: allowedRoles.includes is not a function" ∧
    PERMISSIONS.lookup "toString" = none := by decide

/-- C10 amended: `hasPermission` returns false for an absent user and for
every permission name that is neither a key of the matrix nor an inherited
`Object.prototype` member name; but for the inherited member names
(`constructor`, `toString`, `valueOf`, `__proto__`, …) a present user makes
`allowedRoles.includes` throw a TypeError, so not every unknown name is
safely held by nobody. -/
theorem hasPermission_amended (u : Option Actor) (p : String) :
    (u = none → hasPermission u p = .ok false) ∧
    (PERMISSIONS.lookup p = none → p ∉ objectPrototypeMembers →
      hasPermission u p = .ok false) ∧
    (∀ a, u = some a → PERMISSIONS.lookup p = none → p ∈ objectPrototypeMembers →
      hasPermission u p = .error "TypeError: allowedRoles.includes is not a function") := by
  refine ⟨?_, ?_, ?_⟩
  · rintro rfl; rfl
  · intro hl hm
    cases u with
    | none => rfl
    | some a => simp [hasPermission, permissionsAccess, hl, hm]
  · rintro a rfl hl hm
    simp [hasPermission, permissionsAccess, hl, hm]

/-- Witness for C10 amended: no user, a plainly unknown name, and the
inherited name `valueOf` for an admin. -/
theorem hasPermission_amended_witness :
    hasPermission none "toString" = .ok false ∧
    hasPermission (some ⟨1, "admin"⟩) "frobnicate" = .ok false ∧
    hasPermission (some ⟨1, "admin"⟩) "valueOf" =
      .error "TypeError: allowedRoles.includes is not a function" :=
  ⟨(hasPermission_amended none "toString").1 rfl,
   (hasPermission_amended (some ⟨1, "admin"⟩) "frobnicate").2.1 (by decide) (by decide),
   (hasPermission_amended (some ⟨1, "admin"⟩) "valueOf").2.2 ⟨1, "admin"⟩ rfl
     (by decide) (by decide)⟩
